import Mathlib

/-
  Shallow embedding of the QUIC connection core (src/aioquic/connection.py,
  draft-17 wire format) together with models of its collaborators
  (octet buffer, varint codec, range set, packet header codec, frame codec,
  crypto pair, TLS adapter) that live outside src/ and are therefore
  modelled from the specification document.

  Machine bytes are Nat values below 256; byte strings are List Nat.
  The AEAD is abstracted: sealing appends a 16-byte tag, opening succeeds
  exactly when the directional context holds keys and the ciphertext is
  long enough for packet number plus tag.  All state-machine control flow
  of connection.py is embedded verbatim.
-/

/-- Encryption levels (tls.Epoch). -/
inductive Epoch
  | initial
  | handshake
  | oneRTT
deriving Repr, DecidableEq

/-- A total map indexed by epoch, replacing the three parallel Python dicts. -/
structure EpochMap (α : Type) where
  initial : α
  handshake : α
  oneRTT : α
deriving Repr, DecidableEq

def EpochMap.get {α : Type} (m : EpochMap α) : Epoch → α
  | Epoch.initial => m.initial
  | Epoch.handshake => m.handshake
  | Epoch.oneRTT => m.oneRTT

def EpochMap.set {α : Type} (m : EpochMap α) (e : Epoch) (v : α) : EpochMap α :=
  match e with
  | Epoch.initial => { m with initial := v }
  | Epoch.handshake => { m with handshake := v }
  | Epoch.oneRTT => { m with oneRTT := v }

/-- Modelled from the spec: one directional crypto context (aioquic.crypto,
not under src/).  It is either invalid or holds key material; the actual
AEAD/header-protection keys are abstracted to the bytes they were derived
from.  is_valid() is the valid flag; teardown zeroizes. -/
structure CryptoContext where
  valid : Bool
  keyMaterial : List Nat
deriving Repr, DecidableEq

/-- Modelled from the spec: CryptoPair, a send and a receive context for one
encryption level. -/
structure CryptoPair where
  send : CryptoContext
  recv : CryptoContext
deriving Repr, DecidableEq

def invalidContext : CryptoContext := { valid := false, keyMaterial := [] }

def invalidPair : CryptoPair := { send := invalidContext, recv := invalidContext }

/-- Modelled from the spec: setup_initial derives both directions from the
destination connection ID (and the draft-17 salt, abstracted away). -/
def setupInitialPair (cid : List Nat) : CryptoPair :=
  { send := { valid := true, keyMaterial := cid },
    recv := { valid := true, keyMaterial := cid } }

/-- Modelled from the spec: teardown reverts a pair to invalid and zeroizes
its keys. -/
def teardownPair : CryptoPair := invalidPair

/-- Modelled from the spec: aead_tag_size is the constant 16. -/
def AEAD_TAG_SIZE : Nat := 16

def PACKET_MAX_SIZE : Nat := 1280
def SEND_PN_SIZE : Nat := 2

/-- Modelled from the spec: draft-17 long-header packet-type byte for
Initial packets (form bit, fixed bit, type 0). -/
def PACKET_TYPE_INITIAL : Nat := 0xC0

/-- Modelled from the spec: draft-17 long-header packet-type byte for
Handshake packets (form bit, fixed bit, type 2). -/
def PACKET_TYPE_HANDSHAKE : Nat := 0xE0

def PACKET_FIXED_BIT : Nat := 0x40

def PROTOCOL_VERSION_DRAFT_17 : Nat := 0xFF000011

/-- get_epoch from connection.py: map a packet type to its encryption level;
anything that is neither Initial nor Handshake is 1-RTT. -/
def getEpoch (packetType : Nat) : Epoch :=
  if packetType = PACKET_TYPE_INITIAL then Epoch.initial
  else if packetType = PACKET_TYPE_HANDSHAKE then Epoch.handshake
  else Epoch.oneRTT

/-- Modelled from the spec: the range set (aioquic.rangeset, not under src/)
is an ordered list of disjoint, non-adjacent half-open ranges (lo, hi),
sorted by lower bound. -/
abbrev RangeSet : Type := List (Nat × Nat)

/-- Modelled from the spec: RangeSet.add inserts one integer, extending and
merging neighbouring ranges as needed. -/
def rangeSetAdd : List (Nat × Nat) → Nat → List (Nat × Nat)
  | [], n => [(n, n + 1)]
  | (lo, hi) :: rest, n =>
    if n + 1 < lo then
      (n, n + 1) :: (lo, hi) :: rest
    else if n + 1 = lo then
      (n, hi) :: rest
    else if n < hi then
      (lo, hi) :: rest
    else if n = hi then
      match rest with
      | (lo2, hi2) :: rest2 =>
        if n + 1 = lo2 then (lo, hi2) :: rest2 else (lo, hi + 1) :: (lo2, hi2) :: rest2
      | [] => [(lo, hi + 1)]
    else
      (lo, hi) :: rangeSetAdd rest n

def RangeSet.add (rs : RangeSet) (n : Nat) : RangeSet := rangeSetAdd rs n

/-- Modelled from the spec: the cursor-based octet buffer, read side.  The
underlying bytes never change; only the position advances. -/
structure RBuf where
  data : List Nat
  pos : Nat
deriving Repr, DecidableEq

def RBuf.eof (b : RBuf) : Bool := b.data.length ≤ b.pos

def RBuf.pullUint8 (b : RBuf) : Option (Nat × RBuf) :=
  match b.data[b.pos]? with
  | some v => some (v, { data := b.data, pos := b.pos + 1 })
  | none => none

/-- Modelled from the spec: pull_bytes fails when fewer than n bytes remain. -/
def pullBytesR (n : Nat) (b : RBuf) : Option (List Nat × RBuf) :=
  if b.pos + n ≤ b.data.length then
    some ((b.data.drop b.pos).take n, { data := b.data, pos := b.pos + n })
  else none

/-- Modelled from the spec: QUIC varint decode; the two top bits of the
first byte select a 1/2/4/8-byte encoding and are masked out of the value. -/
def pullUintVar (b : RBuf) : Option (Nat × RBuf) := do
  let (b0, b1) ← b.pullUint8
  let cls := b0 / 64
  let v0 := b0 % 64
  if cls = 0 then
    pure (v0, b1)
  else if cls = 1 then do
    let (x0, b2) ← b1.pullUint8
    pure (v0 * 256 + x0, b2)
  else if cls = 2 then do
    let (rest, b2) ← pullBytesR 3 b1
    pure (rest.foldl (fun a x => a * 256 + x) v0, b2)
  else do
    let (rest, b2) ← pullBytesR 7 b1
    pure (rest.foldl (fun a x => a * 256 + x) v0, b2)

/-- Parsed QUIC header (aioquic.packet.QuicHeader). rest_length delimits the
protected region (packet number, payload and tag). -/
structure QuicHeader where
  packet_type : Nat
  destination_cid : List Nat
  source_cid : List Nat
  rest_length : Nat
deriving Repr, DecidableEq

/-- Modelled from the spec: pull_quic_header.  Long headers carry version,
both connection IDs, a token (Initial only) and an explicit length; short
headers carry a destination CID of the known host CID length and run to the
end of the datagram. -/
def pullQuicHeader (hostCidLength : Nat) (b : RBuf) : Option (QuicHeader × RBuf) := do
  let (b0, b1) ← b.pullUint8
  if 128 ≤ b0 then
    let (_version, b2) ← pullBytesR 4 b1
    let (dl, b3) ← b2.pullUint8
    let (dcid, b4) ← pullBytesR dl b3
    let (sl, b5) ← b4.pullUint8
    let (scid, b6) ← pullBytesR sl b5
    let pt := b0 / 16 * 16
    let b7 ←
      if pt = PACKET_TYPE_INITIAL then do
        let (tl, bx) ← pullUintVar b6
        let (_token, btk) ← pullBytesR tl bx
        pure btk
      else
        pure b6
    let (len, b8) ← pullUintVar b7
    pure ({ packet_type := pt, destination_cid := dcid, source_cid := scid,
            rest_length := len }, b8)
  else
    let (dcid, b2) ← pullBytesR hostCidLength b1
    pure ({ packet_type := b0 / 16 * 16, destination_cid := dcid, source_cid := [],
            rest_length := b2.data.length - b2.pos }, b2)

/-- Modelled from the spec: decrypt_packet.  The AEAD is abstracted: opening
succeeds exactly when the receive context holds keys and the protected
region is long enough for the 2-byte packet number plus the 16-byte tag.
The packet number is taken directly from the two wire bytes (this revision
assumes no reconstruction), and the plaintext payload is the ciphertext
between the packet number and the tag. -/
def decryptPacket (ctx : CryptoContext) (packet : List Nat) (encOff : Nat) :
    Option (List Nat × List Nat × Nat) :=
  if ctx.valid = true ∧ encOff + SEND_PN_SIZE + AEAD_TAG_SIZE ≤ packet.length then
    let pnBytes := (packet.drop encOff).take 2
    let pn := pnBytes.headD 0 * 256 + (pnBytes.drop 1).headD 0
    some (packet.take (encOff + 2),
          (packet.drop (encOff + 2)).take (packet.length - (encOff + 2) - AEAD_TAG_SIZE),
          pn)
  else none

/-- Modelled from the spec: encrypt_packet seals the payload with the header
as associated data; the ciphertext is abstracted as the plaintext followed
by a 16-byte tag, so only its length and framing are meaningful. -/
def encryptPacket (header payload : List Nat) : List Nat :=
  header ++ payload ++ List.replicate AEAD_TAG_SIZE 0

/-- Modelled from the spec: one traffic-key installation requested by the
TLS engine through update_traffic_key_cb. -/
structure KeyUpdate where
  isEncrypt : Bool
  epoch : Epoch
  secret : Nat
deriving Repr, DecidableEq

/-- Modelled from the spec: the synchronous result of tls.handle_message:
a new TLS-internal state, response bytes appended to the send buffer, and
zero or more traffic-key installations. -/
structure TlsResult where
  state : Nat
  output : List Nat
  updates : List KeyUpdate
deriving Repr, DecidableEq

/-- Modelled from the spec: the external TLS engine as a black-box function
of its internal state and the incoming handshake bytes. -/
def TlsHandler : Type := Nat → List Nat → TlsResult

/-- The connection state of QuicConnection (connection.py). -/
structure Conn where
  is_client : Bool
  host_cid : List Nat
  peer_cid : List Nat
  peer_cid_set : Bool
  tlsState : Nat
  send_buffer : List Nat
  send_ack : Bool
  ack : EpochMap RangeSet
  crypto : EpochMap CryptoPair
  packet_number : EpochMap Nat
  crypto_initialized : Bool
deriving Repr, DecidableEq

/-- QuicConnection.__init__ with the two random CIDs and the TLS context
passed in explicitly. -/
def mkConn (isClient : Bool) (hostCid peerCid : List Nat) (tls0 : Nat) : Conn :=
  { is_client := isClient
    host_cid := hostCid
    peer_cid := peerCid
    peer_cid_set := false
    tlsState := tls0
    send_buffer := []
    send_ack := false
    ack := { initial := [], handshake := [], oneRTT := [] }
    crypto := { initial := invalidPair, handshake := invalidPair, oneRTT := invalidPair }
    packet_number := { initial := 0, handshake := 0, oneRTT := 0 }
    crypto_initialized := false }

/-- _update_traffic_key: install one direction of the chosen epoch. -/
def updateTrafficKey (c : Conn) (ku : KeyUpdate) : Conn :=
  let pair := c.crypto.get ku.epoch
  let pair2 :=
    if ku.isEncrypt then
      { pair with send := { valid := true, keyMaterial := [ku.secret] } }
    else
      { pair with recv := { valid := true, keyMaterial := [ku.secret] } }
  { c with crypto := c.crypto.set ku.epoch pair2 }

/-- tls.handle_message as seen by the connection: advance the TLS state,
append the response bytes to the send buffer, apply the key updates. -/
def handleMessage (T : TlsHandler) (c : Conn) (input : List Nat) : Conn :=
  let r := T c.tlsState input
  let c1 := { c with tlsState := r.state, send_buffer := c.send_buffer ++ r.output }
  r.updates.foldl updateTrafficKey c1

/-- connection_made: a client derives Initial keys from its provisional
peer CID and kicks the TLS engine with empty input. -/
def connectionMade (T : TlsHandler) (c : Conn) : Conn :=
  if c.is_client then
    let c1 := { c with crypto := c.crypto.set Epoch.initial (setupInitialPair c.peer_cid),
                       crypto_initialized := true }
    handleMessage T c1 []
  else c

/-- Modelled from the spec: pull_ack_frame reads largest, delay, range count
and first range, then count pairs of (gap, length); the result is discarded
by the connection. -/
def pullAckRanges : Nat → RBuf → Option RBuf
  | 0, b => some b
  | k + 1, b => do
    let (_gap, b1) ← pullUintVar b
    let (_len, b2) ← pullUintVar b1
    pullAckRanges k b2

def pullAckFrame (b : RBuf) : Option RBuf := do
  let (_largest, b1) ← pullUintVar b
  let (_delay, b2) ← pullUintVar b1
  let (count, b3) ← pullUintVar b2
  let (_first, b4) ← pullUintVar b3
  pullAckRanges count b4

/-- Modelled from the spec: pull_crypto_frame reads offset, length and the
data bytes (the offset is ignored by this revision). -/
def pullCryptoFrame (b : RBuf) : Option (List Nat × RBuf) := do
  let (_offset, b1) ← pullUintVar b
  let (len, b2) ← pullUintVar b1
  let (data, b3) ← pullBytesR len b2
  pure (data, b3)

/-- Modelled from the spec: pull_new_connection_id_frame is parsed and
discarded; the spec gives no layout, so the draft-17 layout is used
(sequence varint, CID length byte, CID bytes, 16-byte reset token). -/
def pullNewConnectionIdFrame (b : RBuf) : Option RBuf := do
  let (_seq, b1) ← pullUintVar b
  let (cl, b2) ← b1.pullUint8
  let (_cid, b3) ← pullBytesR cl b2
  let (_token, b4) ← pullBytesR 16 b3
  pure b4

/-- QuicFrameType constants used by connection.py. -/
def FRAME_PADDING : Nat := 0x00
def FRAME_PING : Nat := 0x01
def FRAME_ACK : Nat := 0x02
def FRAME_CRYPTO : Nat := 0x06
def FRAME_NEW_CONNECTION_ID : Nat := 0x18

/-- The frame walk of _payload_received.  Fuel decreases every iteration;
every iteration consumes at least one byte, so fuel of payload length plus
one never runs out.  On a parse error (none) the connection state reached
so far is kept, matching the exception propagating out of the Python loop
after earlier CRYPTO frames already advanced the TLS engine. -/
def payloadLoop (T : TlsHandler) : Nat → Conn → RBuf → Bool → Conn × Option Bool
  | 0, c, _, _ => (c, none)
  | fuel + 1, c, buf, isAckOnly =>
    if buf.eof then (c, some isAckOnly)
    else
      match pullUintVar buf with
      | none => (c, none)
      | some (ft, b1) =>
        if ft = FRAME_PADDING ∨ ft = FRAME_PING then
          payloadLoop T fuel c b1 isAckOnly
        else if ft = FRAME_ACK then
          match pullAckFrame b1 with
          | none => (c, none)
          | some b2 => payloadLoop T fuel c b2 isAckOnly
        else if ft = FRAME_CRYPTO then
          match pullCryptoFrame b1 with
          | none => (c, none)
          | some (d, b2) =>
            if d.length = 0 then (c, none)
            else payloadLoop T fuel (handleMessage T c d) b2 false
        else if ft = FRAME_NEW_CONNECTION_ID then
          match pullNewConnectionIdFrame b1 with
          | none => (c, none)
          | some b2 => payloadLoop T fuel c b2 isAckOnly
        else
          (c, some isAckOnly)

/-- _payload_received: walk the decrypted payload; the Bool result is
is_ack_only (none models an exception escaping the walk). -/
def payloadReceived (T : TlsHandler) (c : Conn) (plain : List Nat) : Conn × Option Bool :=
  payloadLoop T (plain.length + 1) c { data := plain, pos := 0 } true

/-- Lines 103-106 of connection.py: a server that has not yet initialized
crypto derives Initial keys from the destination CID of the packet at
hand, whatever its packet type, and latches crypto_initialized. -/
def serverInit (c : Conn) (h : QuicHeader) : Conn :=
  if c.is_client = false ∧ c.crypto_initialized = false then
    { c with crypto := c.crypto.set Epoch.initial (setupInitialPair h.destination_cid),
             crypto_initialized := true }
  else c

/-- Lines 113-115: latch the peer CID from the first decrypted packet. -/
def latchPeerCid (c : Conn) (h : QuicHeader) : Conn :=
  if c.peer_cid_set = false then
    { c with peer_cid := h.source_cid, peer_cid_set := true }
  else c

/-- Lines 118-124: record the packet number, raise send_ack for a packet
that was not ack-only, and tear down Initial keys after an Initial packet. -/
def finishPacket (c : Conn) (epoch : Epoch) (pn : Nat) (isAckOnly : Bool) : Conn :=
  let c1 := { c with ack := c.ack.set epoch ((c.ack.get epoch).add pn) }
  let c2 := if isAckOnly = false then { c1 with send_ack := true } else c1
  if epoch = Epoch.initial then
    { c2 with crypto := c2.crypto.set Epoch.initial teardownPair }
  else c2

/-- One iteration of the while loop in datagram_received, starting at byte
position pos of the datagram.  The result pairs the connection state after
the iteration with, on success, the position of the next packet and the
is_ack_only classification; none models the Python exception paths (header
parse failure, truncated packet, decryption failure, payload walk failure),
after which the remaining bytes are never examined. -/
def processPacket (T : TlsHandler) (data : List Nat) (c : Conn) (pos : Nat) :
    Conn × Option (Nat × Bool) :=
  match pullQuicHeader c.host_cid.length { data := data, pos := pos } with
  | none => (c, none)
  | some (h, b1) =>
    match pullBytesR h.rest_length b1 with
    | none => (c, none)
    | some _ =>
      match decryptPacket ((serverInit c h).crypto.get (getEpoch h.packet_type)).recv
          ((data.drop pos).take (b1.pos + h.rest_length - pos)) (b1.pos - pos) with
      | none => (serverInit c h, none)
      | some (_, payload, pn) =>
        match payloadReceived T (latchPeerCid (serverInit c h) h) payload with
        | (c3, none) => (c3, none)
        | (c3, some isAckOnly) =>
          (finishPacket c3 (getEpoch h.packet_type) pn isAckOnly,
           some (b1.pos + h.rest_length, isAckOnly))

/-- The while loop of datagram_received over coalesced packets.  The Bool
accumulator records whether any processed packet was not ack-only.  Fuel
decreases every iteration; datagram length plus one suffices because every
parsed packet consumes at least one byte. -/
def receiveLoop (T : TlsHandler) (data : List Nat) :
    Nat → Conn → Nat → Bool → Conn × Bool
  | 0, c, _, flag => (c, flag)
  | fuel + 1, c, pos, flag =>
    if data.length ≤ pos then (c, flag)
    else
      match processPacket T data c pos with
      | (c2, none) => (c2, flag)
      | (c2, some (pos2, isAckOnly)) => receiveLoop T data fuel c2 pos2 (flag || !isAckOnly)

/-- datagram_received, additionally exposing whether any packet of the
datagram was processed and classified not ack-only. -/
def datagramReceivedFlag (T : TlsHandler) (c : Conn) (data : List Nat) : Conn × Bool :=
  receiveLoop T data (data.length + 1) c 0 false

/-- datagram_received: the connection state after ingesting one datagram. -/
def datagramReceived (T : TlsHandler) (c : Conn) (data : List Nat) : Conn :=
  (datagramReceivedFlag T c data).1

/-- Big-endian fixed-width encoding of v into n bytes (push_uint8/16/32/64). -/
def beBytes : Nat → Nat → List Nat
  | 0, _ => []
  | n + 1, v => (v / 256 ^ n % 256) :: beBytes n v

/-- Modelled from the spec: QUIC varint encode, choosing the smallest class
and writing the class in the two top bits of the first byte. -/
def pushUintVar (v : Nat) : List Nat :=
  if v < 2 ^ 6 then beBytes 1 v
  else if v < 2 ^ 14 then beBytes 2 (2 ^ 14 + v)
  else if v < 2 ^ 30 then beBytes 4 (2 ^ 31 + v)
  else beBytes 8 (3 * 2 ^ 62 + v)

/-- Modelled from the spec: the (gap, length) pairs of push_ack_frame,
walking the ranges downward. -/
def ackPairs : Nat → List (Nat × Nat) → List Nat
  | _, [] => []
  | prevLo, (lo, hi) :: rest =>
    pushUintVar (prevLo - hi - 1) ++ pushUintVar (hi - lo - 1) ++ ackPairs lo rest

/-- Modelled from the spec: push_ack_frame body (after the frame-type byte):
largest acknowledged, ack delay, range count, first range, then the
(gap, length) pairs from the highest range downward. -/
def ackFrameBytes (rs : RangeSet) (delay : Nat) : List Nat :=
  match rs.reverse with
  | [] => []
  | (lo, hi) :: rest =>
    pushUintVar (hi - 1) ++ pushUintVar delay ++ pushUintVar rest.length ++
      pushUintVar (hi - lo - 1) ++ ackPairs lo rest

/-- Whether _write_handshake or _write_application would write an ACK frame
at this epoch: send_ack is set and the range set is non-empty (lines
176 and 223 of connection.py). -/
def whAckW (c : Conn) (epoch : Epoch) : Bool :=
  c.send_ack && !(c.ack.get epoch).isEmpty

/-- The long header of _write_handshake up to (not including) the 2-byte
length and 2-byte packet-number fields: type byte with pn-length bits,
version, destination CID (peer), source CID (host), and the empty token
for Initial packets. -/
def whHdrBase (c : Conn) (epoch : Epoch) : List Nat :=
  [(if epoch = Epoch.initial then PACKET_TYPE_INITIAL else PACKET_TYPE_HANDSHAKE)
     + (SEND_PN_SIZE - 1)] ++
    beBytes 4 PROTOCOL_VERSION_DRAFT_17 ++
    [c.peer_cid.length] ++ c.peer_cid ++ [c.host_cid.length] ++ c.host_cid ++
    (if epoch = Epoch.initial then pushUintVar 0 else [])

/-- header_size of _write_handshake: the base header plus the 2-byte length
placeholder and the 2-byte packet number. -/
def whHeaderSize (c : Conn) (epoch : Epoch) : Nat :=
  (whHdrBase c epoch).length + 4

/-- The CRYPTO frame of _write_handshake: frame type, offset 0, 2-byte
length with the varint class bits, then the whole TLS outbound buffer. -/
def whCryptoFrame (c : Conn) : List Nat :=
  pushUintVar FRAME_CRYPTO ++ pushUintVar 0 ++
    beBytes 2 (2 ^ 14 + c.send_buffer.length) ++ c.send_buffer

/-- The PADDING run of _write_handshake: for Initial, zero bytes up to
1280 minus the AEAD tag size; nothing otherwise (lines 216-220). -/
def whPadding (c : Conn) (epoch : Epoch) : List Nat :=
  if epoch = Epoch.initial then
    List.replicate
      (PACKET_MAX_SIZE - AEAD_TAG_SIZE - (whHeaderSize c epoch + (whCryptoFrame c).length)) 0
  else []

/-- The ACK frame bytes appended by _write_handshake, when any. -/
def whAckBytes (c : Conn) (epoch : Epoch) : List Nat :=
  if whAckW c epoch then pushUintVar FRAME_ACK ++ ackFrameBytes (c.ack.get epoch) 0 else []

/-- The plaintext payload of the handshake packet: CRYPTO frame, then
padding, then the optional ACK frame (in exactly that order). -/
def whPayload (c : Conn) (epoch : Epoch) : List Nat :=
  whCryptoFrame c ++ whPadding c epoch ++ whAckBytes c epoch

/-- The finalized header with patched length (varint 2-byte class) and
packet number, then the whole emitted datagram. -/
def whHdr (c : Conn) (epoch : Epoch) : List Nat :=
  whHdrBase c epoch ++
    beBytes 2 (2 ^ 14 + ((whPayload c epoch).length + 2 + AEAD_TAG_SIZE)) ++
    beBytes 2 (c.packet_number.get epoch % 2 ^ 16)

def whDatagram (c : Conn) (epoch : Epoch) : List Nat :=
  encryptPacket (whHdr c epoch) (whPayload c epoch)

/-- _write_handshake for one epoch (Initial or Handshake).  Returns the
emitted datagram, if any, tagged with whether an ACK frame was written into
it, together with the connection state afterwards.  The fixed-capacity
packet buffer is modelled as unbounded lists; theorems that depend on sizes
carry explicit bounds matching the 1280-byte capacity. -/
def writeHandshake (c : Conn) (epoch : Epoch) : Option (List Nat × Bool) × Conn :=
  if (c.crypto.get epoch).send.valid = false ∨ c.send_buffer.length = 0 then (none, c)
  else
    (some (whDatagram c epoch, whAckW c epoch),
     { c with send_buffer := [],
              send_ack := c.send_ack && !(whAckW c epoch),
              packet_number := c.packet_number.set epoch (c.packet_number.get epoch + 1) })

/-- The short header of _write_application: fixed bit with pn-length bits,
peer CID, 2-byte packet number. -/
def waHdr (c : Conn) : List Nat :=
  [PACKET_FIXED_BIT + (SEND_PN_SIZE - 1)] ++ c.peer_cid ++
    beBytes 2 (c.packet_number.get Epoch.oneRTT % 2 ^ 16)

/-- The 1-RTT payload: the ACK frame when send_ack is set, nothing else
(this revision has no streams). -/
def waPayload (c : Conn) : List Nat :=
  if whAckW c Epoch.oneRTT then
    pushUintVar FRAME_ACK ++ ackFrameBytes (c.ack.get Epoch.oneRTT) 0
  else []

def waDatagram (c : Conn) : List Nat :=
  encryptPacket (waHdr c) (waPayload c)

/-- _write_application: the 1-RTT short-header packet carrying at most an
ACK frame. -/
def writeApplication (c : Conn) : Option (List Nat × Bool) × Conn :=
  if (c.crypto.get Epoch.oneRTT).send.valid = false ∨ c.ack.get Epoch.oneRTT = [] then
    (none, c)
  else
    (some (waDatagram c, whAckW c Epoch.oneRTT),
     { c with send_ack := c.send_ack && !(whAckW c Epoch.oneRTT),
              packet_number :=
                c.packet_number.set Epoch.oneRTT (c.packet_number.get Epoch.oneRTT + 1) })

/-- Tag a writer result with its epoch for bookkeeping of emission order. -/
def tagOut (e : Epoch) : Option (List Nat × Bool) → List (Epoch × List Nat × Bool)
  | none => []
  | some (d, w) => [(e, d, w)]

/-- pending_datagrams, fully drained: Initial, then Handshake, then 1-RTT.
Each emitted datagram is tagged with its epoch and with whether an ACK
frame was written into it. -/
def pendingDatagrams (c : Conn) : List (Epoch × List Nat × Bool) × Conn :=
  let r1 := writeHandshake c Epoch.initial
  let r2 := writeHandshake r1.2 Epoch.handshake
  let r3 := writeApplication r2.2
  (tagOut Epoch.initial r1.1 ++ tagOut Epoch.handshake r2.1 ++ tagOut Epoch.oneRTT r3.1, r3.2)

/-- The operations a host can drive the connection with. -/
inductive Op
  | connect
  | recv (data : List Nat)
  | send
deriving Repr

/-- Apply one operation, collecting emitted datagrams. -/
def runOp (T : TlsHandler) (c : Conn) : Op → Conn × List (Epoch × List Nat × Bool)
  | Op.connect => (connectionMade T c, [])
  | Op.recv d => (datagramReceived T c d, [])
  | Op.send =>
    let r := pendingDatagrams c
    (r.2, r.1)

/-- Run a sequence of operations, concatenating everything emitted. -/
def runOps (T : TlsHandler) (c : Conn) : List Op → Conn × List (Epoch × List Nat × Bool)
  | [] => (c, [])
  | op :: rest =>
    let r1 := runOp T c op
    let r2 := runOps T r1.1 rest
    (r2.1, r1.2 ++ r2.2)

/-- Count the datagrams of a given epoch in an emission log. -/
def countEpoch (e : Epoch) (outs : List (Epoch × List Nat × Bool)) : Nat :=
  outs.countP (fun x => decide (x.1 = e))

/-- Both directions of the Initial crypto pair are invalid. -/
def initialTornDown (c : Conn) : Prop :=
  (c.crypto.get Epoch.initial).send.valid = false ∧
    (c.crypto.get Epoch.initial).recv.valid = false

/-- The TLS engine never installs Initial-epoch traffic keys (Initial keys
are derived only by setup_initial; the callback carries Handshake and 1-RTT
secrets). -/
def noInitialKeyUpdates (T : TlsHandler) : Prop :=
  ∀ s d ku, ku ∈ (T s d).updates → ku.epoch ≠ Epoch.initial

/-- The TLS engine that does nothing: no output, no key updates. -/
def trivTls : TlsHandler := fun s _ => { state := s, output := [], updates := [] }

/-- A fresh server connection with empty host and peer CIDs. -/
def srvConn : Conn := mkConn false [] [] 0

/-- A Handshake-type long-header packet (undecryptable by a fresh server):
type byte, version, dcid length 1 and dcid 9, scid length 0, length 18,
then a 2-byte packet number and a 16-byte tag. -/
def dgramHS : List Nat := [0xE1, 0, 0, 0, 0, 1, 9, 0, 18, 0, 0] ++ List.replicate 16 0

/-- The header dgramHS parses to. -/
def hsHeader : QuicHeader :=
  { packet_type := PACKET_TYPE_HANDSHAKE, destination_cid := [9], source_cid := [],
    rest_length := 18 }

/-- An Initial long-header packet with destination CID 9, source CID 5, a
zero packet number and a single PADDING frame. -/
def dgramInit : List Nat :=
  [0xC1, 0, 0, 0, 0, 1, 9, 1, 5, 0, 19, 0, 0, 0] ++ List.replicate 16 0

/-- The header dgramInit parses to. -/
def initHeader : QuicHeader :=
  { packet_type := PACKET_TYPE_INITIAL, destination_cid := [9], source_cid := [5],
    rest_length := 19 }

/-- A client connection holding only 1-RTT receive keys. -/
def oneRttRecvConn : Conn :=
  { mkConn true [] [] 0 with
      crypto := { initial := invalidPair, handshake := invalidPair,
                  oneRTT := { send := invalidContext,
                              recv := { valid := true, keyMaterial := [1] } } } }

/-- A short-header packet whose payload is a single PING frame. -/
def dgramPing : List Nat := [0x40, 0, 0, 1] ++ List.replicate 16 0

/-- A short-header packet whose payload is one CRYPTO frame carrying one
byte of handshake data. -/
def dgramCrypto : List Nat := [0x40, 0, 0, 6, 0, 1, 7] ++ List.replicate 16 0

/-- A client ready to send its first Initial flight: valid Initial send
keys and a one-byte TLS outbound buffer. -/
def clientInitConn : Conn :=
  { mkConn true [] [] 0 with
      crypto := { initial := setupInitialPair [], handshake := invalidPair,
                  oneRTT := invalidPair },
      send_buffer := [7] }

/-- The same client with send_ack raised and packet 0 recorded at Initial,
so that its next Initial packet carries an ACK frame. -/
def clientInitAckConn : Conn :=
  { clientInitConn with
      send_ack := true,
      ack := { initial := [(0, 1)], handshake := [], oneRTT := [] } }

theorem EpochMap.get_set_same {α : Type} (m : EpochMap α) (e : Epoch) (v : α) :
    (m.set e v).get e = v := by
  cases e <;> rfl

theorem EpochMap.get_set_ne {α : Type} (m : EpochMap α) (e e2 : Epoch) (v : α)
    (h : e ≠ e2) : (m.set e v).get e2 = m.get e2 := by
  cases e <;> cases e2 <;> first | rfl | exact absurd rfl h

/-- The fields of Conn that the TLS engine and key updates never touch. -/
def quietFields (c d : Conn) : Prop :=
  d.is_client = c.is_client ∧ d.host_cid = c.host_cid ∧ d.peer_cid = c.peer_cid ∧
    d.peer_cid_set = c.peer_cid_set ∧ d.send_ack = c.send_ack ∧ d.ack = c.ack ∧
    d.packet_number = c.packet_number ∧ d.crypto_initialized = c.crypto_initialized

theorem quietFields_refl (c : Conn) : quietFields c c :=
  ⟨rfl, rfl, rfl, rfl, rfl, rfl, rfl, rfl⟩

theorem quietFields_trans {a b c : Conn} (h1 : quietFields a b) (h2 : quietFields b c) :
    quietFields a c := by
  obtain ⟨p1, p2, p3, p4, p5, p6, p7, p8⟩ := h1
  obtain ⟨q1, q2, q3, q4, q5, q6, q7, q8⟩ := h2
  exact ⟨q1.trans p1, q2.trans p2, q3.trans p3, q4.trans p4,
         q5.trans p5, q6.trans p6, q7.trans p7, q8.trans p8⟩

theorem updateTrafficKey_quiet (c : Conn) (ku : KeyUpdate) :
    quietFields c (updateTrafficKey c ku) := by
  unfold updateTrafficKey
  exact ⟨rfl, rfl, rfl, rfl, rfl, rfl, rfl, rfl⟩

theorem foldl_updateTrafficKey_quiet (l : List KeyUpdate) :
    ∀ c : Conn, quietFields c (l.foldl updateTrafficKey c) := by
  induction l with
  | nil => exact fun c => quietFields_refl c
  | cons ku rest ih =>
    intro c
    exact quietFields_trans (updateTrafficKey_quiet c ku) (ih (updateTrafficKey c ku))

theorem handleMessage_quiet (T : TlsHandler) (c : Conn) (input : List Nat) :
    quietFields c (handleMessage T c input) := by
  unfold handleMessage
  exact quietFields_trans ⟨rfl, rfl, rfl, rfl, rfl, rfl, rfl, rfl⟩
    (foldl_updateTrafficKey_quiet _ _)

theorem payloadLoop_quiet (T : TlsHandler) :
    ∀ (fuel : Nat) (c : Conn) (buf : RBuf) (iao : Bool),
      quietFields c (payloadLoop T fuel c buf iao).1 := by
  intro fuel
  induction fuel with
  | zero => intro c buf iao; exact quietFields_refl c
  | succ n ih =>
    intro c buf iao
    unfold payloadLoop
    repeat' split
    all_goals
      first
        | exact quietFields_refl c
        | exact ih c _ _
        | exact quietFields_trans (handleMessage_quiet T c _) (ih (handleMessage T c _) _ _)

theorem payloadReceived_quiet (T : TlsHandler) (c : Conn) (plain : List Nat) :
    quietFields c (payloadReceived T c plain).1 :=
  payloadLoop_quiet T (plain.length + 1) c { data := plain, pos := 0 } true

/-- Validity can only grow: once a directional context is valid it stays so. -/
def ctxLe (a b : CryptoContext) : Prop := a.valid = true → b.valid = true

def cryptoLe (a b : EpochMap CryptoPair) : Prop :=
  ∀ e : Epoch, ctxLe (a.get e).send (b.get e).send ∧ ctxLe (a.get e).recv (b.get e).recv

theorem cryptoLe_refl (a : EpochMap CryptoPair) : cryptoLe a a :=
  fun _ => ⟨fun hv => hv, fun hv => hv⟩

theorem cryptoLe_trans {a b c : EpochMap CryptoPair} (h1 : cryptoLe a b) (h2 : cryptoLe b c) :
    cryptoLe a c :=
  fun e => ⟨fun hv => (h2 e).1 ((h1 e).1 hv), fun hv => (h2 e).2 ((h1 e).2 hv)⟩

theorem updateTrafficKey_cryptoLe (c : Conn) (ku : KeyUpdate) :
    cryptoLe c.crypto (updateTrafficKey c ku).crypto := by
  intro e
  unfold updateTrafficKey
  by_cases he : ku.epoch = e
  · subst he
    rw [EpochMap.get_set_same]
    cases hEnc : ku.isEncrypt <;> simp [ctxLe, hEnc]
  · rw [EpochMap.get_set_ne _ _ _ _ he]
    exact ⟨fun hv => hv, fun hv => hv⟩

theorem foldl_updateTrafficKey_cryptoLe (l : List KeyUpdate) :
    ∀ c : Conn, cryptoLe c.crypto (l.foldl updateTrafficKey c).crypto := by
  induction l with
  | nil => exact fun c => cryptoLe_refl c.crypto
  | cons ku rest ih =>
    intro c
    exact cryptoLe_trans (updateTrafficKey_cryptoLe c ku) (ih (updateTrafficKey c ku))

theorem handleMessage_cryptoLe (T : TlsHandler) (c : Conn) (input : List Nat) :
    cryptoLe c.crypto (handleMessage T c input).crypto := by
  unfold handleMessage
  exact foldl_updateTrafficKey_cryptoLe (T c.tlsState input).updates
    { c with tlsState := (T c.tlsState input).state,
             send_buffer := c.send_buffer ++ (T c.tlsState input).output }

theorem payloadLoop_cryptoLe (T : TlsHandler) :
    ∀ (fuel : Nat) (c : Conn) (buf : RBuf) (iao : Bool),
      cryptoLe c.crypto (payloadLoop T fuel c buf iao).1.crypto := by
  intro fuel
  induction fuel with
  | zero => intro c buf iao; exact cryptoLe_refl c.crypto
  | succ n ih =>
    intro c buf iao
    unfold payloadLoop
    repeat' split
    all_goals
      first
        | exact cryptoLe_refl c.crypto
        | exact ih c _ _
        | exact cryptoLe_trans (handleMessage_cryptoLe T c _) (ih (handleMessage T c _) _ _)

theorem payloadReceived_cryptoLe (T : TlsHandler) (c : Conn) (plain : List Nat) :
    cryptoLe c.crypto (payloadReceived T c plain).1.crypto :=
  payloadLoop_cryptoLe T (plain.length + 1) c { data := plain, pos := 0 } true

theorem updateTrafficKey_initial_fixed (c : Conn) (ku : KeyUpdate)
    (h : ku.epoch ≠ Epoch.initial) :
    (updateTrafficKey c ku).crypto.get Epoch.initial = c.crypto.get Epoch.initial := by
  unfold updateTrafficKey
  exact EpochMap.get_set_ne _ _ _ _ h

theorem foldl_updateTrafficKey_initial_fixed (l : List KeyUpdate)
    (h : ∀ ku ∈ l, ku.epoch ≠ Epoch.initial) :
    ∀ c : Conn, (l.foldl updateTrafficKey c).crypto.get Epoch.initial =
      c.crypto.get Epoch.initial := by
  induction l with
  | nil => exact fun c => rfl
  | cons ku rest ih =>
    intro c
    rw [List.foldl_cons, ih (fun k hk => h k (List.mem_cons_of_mem ku hk)),
        updateTrafficKey_initial_fixed c ku (h ku (List.mem_cons_self ku rest))]

theorem handleMessage_initial_fixed (T : TlsHandler) (hT : noInitialKeyUpdates T)
    (c : Conn) (input : List Nat) :
    (handleMessage T c input).crypto.get Epoch.initial = c.crypto.get Epoch.initial := by
  unfold handleMessage
  exact foldl_updateTrafficKey_initial_fixed _ (fun ku hk => hT _ _ ku hk) _

theorem payloadLoop_initial_fixed (T : TlsHandler) (hT : noInitialKeyUpdates T) :
    ∀ (fuel : Nat) (c : Conn) (buf : RBuf) (iao : Bool),
      (payloadLoop T fuel c buf iao).1.crypto.get Epoch.initial =
        c.crypto.get Epoch.initial := by
  intro fuel
  induction fuel with
  | zero => intro c buf iao; rfl
  | succ n ih =>
    intro c buf iao
    unfold payloadLoop
    repeat' split
    all_goals
      first
        | rfl
        | exact ih c _ _
        | exact (ih (handleMessage T c _) _ _).trans (handleMessage_initial_fixed T hT c _)

theorem payloadReceived_initial_fixed (T : TlsHandler) (hT : noInitialKeyUpdates T)
    (c : Conn) (plain : List Nat) :
    (payloadReceived T c plain).1.crypto.get Epoch.initial = c.crypto.get Epoch.initial :=
  payloadLoop_initial_fixed T hT (plain.length + 1) c { data := plain, pos := 0 } true

theorem serverInit_fields (c : Conn) (h : QuicHeader) :
    (serverInit c h).is_client = c.is_client ∧
    (serverInit c h).host_cid = c.host_cid ∧
    (serverInit c h).peer_cid = c.peer_cid ∧
    (serverInit c h).peer_cid_set = c.peer_cid_set ∧
    (serverInit c h).send_ack = c.send_ack ∧
    (serverInit c h).ack = c.ack ∧
    (serverInit c h).packet_number = c.packet_number ∧
    (serverInit c h).send_buffer = c.send_buffer ∧
    (serverInit c h).tlsState = c.tlsState := by
  unfold serverInit
  split <;> exact ⟨rfl, rfl, rfl, rfl, rfl, rfl, rfl, rfl, rfl⟩

theorem serverInit_skip (c : Conn) (h : QuicHeader)
    (hc : c.is_client = true ∨ c.crypto_initialized = true) : serverInit c h = c := by
  unfold serverInit
  split
  · next hg =>
    rcases hc with hc | hc
    · rw [hg.1] at hc
      exact Bool.noConfusion hc
    · rw [hg.2] at hc
      exact Bool.noConfusion hc
  · rfl

theorem serverInit_ci_mono (c : Conn) (h : QuicHeader) (hc : c.crypto_initialized = true) :
    (serverInit c h).crypto_initialized = true := by
  rw [serverInit_skip c h (Or.inr hc)]
  exact hc

theorem serverInit_fires (c : Conn) (h : QuicHeader)
    (h1 : c.is_client = false) (h2 : c.crypto_initialized = false) :
    serverInit c h =
      { c with crypto := c.crypto.set Epoch.initial (setupInitialPair h.destination_cid),
               crypto_initialized := true } := by
  unfold serverInit
  rw [if_pos ⟨h1, h2⟩]

theorem latchPeerCid_fields (c : Conn) (h : QuicHeader) :
    (latchPeerCid c h).is_client = c.is_client ∧
    (latchPeerCid c h).host_cid = c.host_cid ∧
    (latchPeerCid c h).send_ack = c.send_ack ∧
    (latchPeerCid c h).ack = c.ack ∧
    (latchPeerCid c h).packet_number = c.packet_number ∧
    (latchPeerCid c h).crypto = c.crypto ∧
    (latchPeerCid c h).crypto_initialized = c.crypto_initialized ∧
    (latchPeerCid c h).send_buffer = c.send_buffer ∧
    (latchPeerCid c h).tlsState = c.tlsState := by
  unfold latchPeerCid
  split <;> exact ⟨rfl, rfl, rfl, rfl, rfl, rfl, rfl, rfl, rfl⟩

theorem latchPeerCid_skip (c : Conn) (h : QuicHeader) (hp : c.peer_cid_set = true) :
    latchPeerCid c h = c := by
  unfold latchPeerCid
  rw [hp]
  simp

theorem latchPeerCid_fires (c : Conn) (h : QuicHeader) (hp : c.peer_cid_set = false) :
    latchPeerCid c h = { c with peer_cid := h.source_cid, peer_cid_set := true } := by
  unfold latchPeerCid
  rw [if_pos hp]

theorem finishPacket_fields (c : Conn) (e : Epoch) (pn : Nat) (iao : Bool) :
    (finishPacket c e pn iao).is_client = c.is_client ∧
    (finishPacket c e pn iao).host_cid = c.host_cid ∧
    (finishPacket c e pn iao).peer_cid = c.peer_cid ∧
    (finishPacket c e pn iao).peer_cid_set = c.peer_cid_set ∧
    (finishPacket c e pn iao).packet_number = c.packet_number ∧
    (finishPacket c e pn iao).send_buffer = c.send_buffer ∧
    (finishPacket c e pn iao).tlsState = c.tlsState ∧
    (finishPacket c e pn iao).crypto_initialized = c.crypto_initialized := by
  unfold finishPacket
  repeat' split
  all_goals exact ⟨rfl, rfl, rfl, rfl, rfl, rfl, rfl, rfl⟩

theorem finishPacket_send_ack_mono (c : Conn) (e : Epoch) (pn : Nat) (iao : Bool)
    (hc : c.send_ack = true) : (finishPacket c e pn iao).send_ack = true := by
  unfold finishPacket
  repeat' split
  all_goals first | rfl | exact hc

theorem finishPacket_send_ack_elicit (c : Conn) (e : Epoch) (pn : Nat) :
    (finishPacket c e pn false).send_ack = true := by
  unfold finishPacket
  repeat' split
  all_goals first | rfl | exact absurd rfl (by assumption)

theorem finishPacket_crypto (c : Conn) (e : Epoch) (pn : Nat) (iao : Bool) :
    (finishPacket c e pn iao).crypto = c.crypto ∨
    (finishPacket c e pn iao).crypto = c.crypto.set Epoch.initial teardownPair := by
  unfold finishPacket
  repeat' split
  all_goals first | exact Or.inl rfl | exact Or.inr rfl

theorem finishPacket_teardown (c : Conn) (pn : Nat) (iao : Bool) :
    (finishPacket c Epoch.initial pn iao).crypto.get Epoch.initial = teardownPair := by
  unfold finishPacket
  repeat' split
  all_goals
    first
      | exact EpochMap.get_set_same _ Epoch.initial _
      | exact absurd rfl (by assumption)

theorem finishPacket_keeps_crypto (c : Conn) (e : Epoch) (pn : Nat) (iao : Bool)
    (he : e ≠ Epoch.initial) : (finishPacket c e pn iao).crypto = c.crypto := by
  unfold finishPacket
  rw [if_neg he]
  split <;> rfl

/-- The four outcomes of one receive-loop iteration: parse failure (state
untouched), decryption failure (only the lazy server Initial setup
persists), payload-walk failure (partial TLS progress persists), and
success. -/
theorem processPacket_cases (T : TlsHandler) (data : List Nat) (c : Conn) (pos : Nat) :
    processPacket T data c pos = (c, none) ∨
    (∃ h b1, pullQuicHeader c.host_cid.length { data := data, pos := pos } = some (h, b1) ∧
       processPacket T data c pos = (serverInit c h, none)) ∨
    (∃ h b1 payload c3,
       pullQuicHeader c.host_cid.length { data := data, pos := pos } = some (h, b1) ∧
       payloadReceived T (latchPeerCid (serverInit c h) h) payload = (c3, none) ∧
       processPacket T data c pos = (c3, none)) ∨
    (∃ h b1 payload pn c3 iao,
       pullQuicHeader c.host_cid.length { data := data, pos := pos } = some (h, b1) ∧
       payloadReceived T (latchPeerCid (serverInit c h) h) payload = (c3, some iao) ∧
       processPacket T data c pos =
         (finishPacket c3 (getEpoch h.packet_type) pn iao,
          some (b1.pos + h.rest_length, iao))) := by
  rcases hH : pullQuicHeader c.host_cid.length { data := data, pos := pos } with _ | ⟨h, b1⟩
  · exact Or.inl (by simp only [processPacket, hH])
  · rcases hB : pullBytesR h.rest_length b1 with _ | w
    · exact Or.inl (by simp only [processPacket, hH, hB])
    · rcases hD : decryptPacket ((serverInit c h).crypto.get (getEpoch h.packet_type)).recv
          ((data.drop pos).take (b1.pos + h.rest_length - pos)) (b1.pos - pos) with
        _ | ⟨ph, payload, pn⟩
      · exact Or.inr (Or.inl ⟨h, b1, rfl, by simp only [processPacket, hH, hB, hD]⟩)
      · rcases hP : payloadReceived T (latchPeerCid (serverInit c h) h) payload with ⟨c3, o⟩
        rcases o with _ | iao
        · exact Or.inr (Or.inr (Or.inl ⟨h, b1, payload, c3, rfl, hP,
            by simp only [processPacket, hH, hB, hD, hP]⟩))
        · exact Or.inr (Or.inr (Or.inr ⟨h, b1, payload, pn, c3, iao, rfl, hP,
            by simp only [processPacket, hH, hB, hD, hP]⟩))

theorem processPacket_core (T : TlsHandler) (data : List Nat) (c : Conn) (pos : Nat) :
    (processPacket T data c pos).1.is_client = c.is_client ∧
    (processPacket T data c pos).1.host_cid = c.host_cid ∧
    (processPacket T data c pos).1.packet_number = c.packet_number := by
  rcases processPacket_cases T data c pos with hE | ⟨h, b1, hH, hE⟩ |
    ⟨h, b1, payload, c3, hH, hP, hE⟩ | ⟨h, b1, payload, pn, c3, iao, hH, hP, hE⟩
  · rw [hE]
    exact ⟨rfl, rfl, rfl⟩
  · rw [hE]
    obtain ⟨f1, f2, _, _, _, _, f7, _, _⟩ := serverInit_fields c h
    exact ⟨f1, f2, f7⟩
  · rw [hE]
    have hq := payloadReceived_quiet T (latchPeerCid (serverInit c h) h) payload
    rw [hP] at hq
    obtain ⟨q1, q2, _, _, _, _, q7, _⟩ := hq
    obtain ⟨l1, l2, _, _, l5, _, _, _, _⟩ := latchPeerCid_fields (serverInit c h) h
    obtain ⟨s1, s2, _, _, _, _, s7, _, _⟩ := serverInit_fields c h
    exact ⟨(q1.trans l1).trans s1, (q2.trans l2).trans s2, (q7.trans l5).trans s7⟩
  · rw [hE]
    have hq := payloadReceived_quiet T (latchPeerCid (serverInit c h) h) payload
    rw [hP] at hq
    obtain ⟨q1, q2, _, _, _, _, q7, _⟩ := hq
    obtain ⟨l1, l2, _, _, l5, _, _, _, _⟩ := latchPeerCid_fields (serverInit c h) h
    obtain ⟨s1, s2, _, _, _, _, s7, _, _⟩ := serverInit_fields c h
    obtain ⟨g1, g2, _, _, g5, _, _, _⟩ :=
      finishPacket_fields c3 (getEpoch h.packet_type) pn iao
    exact ⟨(g1.trans q1).trans (l1.trans s1), (g2.trans q2).trans (l2.trans s2),
           (g5.trans q7).trans (l5.trans s7)⟩

theorem processPacket_send_ack_mono (T : TlsHandler) (data : List Nat) (c : Conn)
    (pos : Nat) (hc : c.send_ack = true) :
    (processPacket T data c pos).1.send_ack = true := by
  rcases processPacket_cases T data c pos with hE | ⟨h, b1, hH, hE⟩ |
    ⟨h, b1, payload, c3, hH, hP, hE⟩ | ⟨h, b1, payload, pn, c3, iao, hH, hP, hE⟩
  · rw [hE]; exact hc
  · rw [hE]
    exact ((serverInit_fields c h).2.2.2.2.1).trans hc
  · rw [hE]
    have hq := payloadReceived_quiet T (latchPeerCid (serverInit c h) h) payload
    rw [hP] at hq
    exact (hq.2.2.2.2.1.trans
      ((latchPeerCid_fields (serverInit c h) h).2.2.1.trans
        (serverInit_fields c h).2.2.2.2.1)).trans hc
  · rw [hE]
    apply finishPacket_send_ack_mono
    have hq := payloadReceived_quiet T (latchPeerCid (serverInit c h) h) payload
    rw [hP] at hq
    exact (hq.2.2.2.2.1.trans
      ((latchPeerCid_fields (serverInit c h) h).2.2.1.trans
        (serverInit_fields c h).2.2.2.2.1)).trans hc

theorem processPacket_send_ack_elicit (T : TlsHandler) (data : List Nat) (c : Conn)
    (pos p : Nat) (hE2 : (processPacket T data c pos).2 = some (p, false)) :
    (processPacket T data c pos).1.send_ack = true := by
  rcases processPacket_cases T data c pos with hE | ⟨h, b1, hH, hE⟩ |
    ⟨h, b1, payload, c3, hH, hP, hE⟩ | ⟨h, b1, payload, pn, c3, iao, hH, hP, hE⟩
  · rw [hE] at hE2; cases hE2
  · rw [hE] at hE2; cases hE2
  · rw [hE] at hE2; cases hE2
  · rw [hE] at hE2
    have hiao : iao = false := (Prod.mk.injEq _ _ _ _).mp (Option.some.inj hE2) |>.2
    rw [hE, hiao]
    exact finishPacket_send_ack_elicit c3 (getEpoch h.packet_type) pn

theorem processPacket_peer_cid_keep (T : TlsHandler) (data : List Nat) (c : Conn)
    (pos : Nat) (hp : c.peer_cid_set = true) :
    (processPacket T data c pos).1.peer_cid = c.peer_cid ∧
    (processPacket T data c pos).1.peer_cid_set = true := by
  rcases processPacket_cases T data c pos with hE | ⟨h, b1, hH, hE⟩ |
    ⟨h, b1, payload, c3, hH, hP, hE⟩ | ⟨h, b1, payload, pn, c3, iao, hH, hP, hE⟩
  · rw [hE]; exact ⟨rfl, hp⟩
  · rw [hE]
    exact ⟨(serverInit_fields c h).2.2.1, ((serverInit_fields c h).2.2.2.1).trans hp⟩
  · rw [hE]
    have hq := payloadReceived_quiet T (latchPeerCid (serverInit c h) h) payload
    rw [hP] at hq
    have hskip : latchPeerCid (serverInit c h) h = serverInit c h :=
      latchPeerCid_skip _ h (((serverInit_fields c h).2.2.2.1).trans hp)
    rw [hskip] at hq
    exact ⟨hq.2.2.1.trans (serverInit_fields c h).2.2.1,
           (hq.2.2.2.1.trans (serverInit_fields c h).2.2.2.1).trans hp⟩
  · rw [hE]
    have hq := payloadReceived_quiet T (latchPeerCid (serverInit c h) h) payload
    rw [hP] at hq
    have hskip : latchPeerCid (serverInit c h) h = serverInit c h :=
      latchPeerCid_skip _ h (((serverInit_fields c h).2.2.2.1).trans hp)
    rw [hskip] at hq
    obtain ⟨_, _, g3, g4, _, _, _, _⟩ := finishPacket_fields c3 (getEpoch h.packet_type) pn iao
    exact ⟨g3.trans (hq.2.2.1.trans (serverInit_fields c h).2.2.1),
           g4.trans ((hq.2.2.2.1.trans (serverInit_fields c h).2.2.2.1).trans hp)⟩

theorem processPacket_ci_mono (T : TlsHandler) (data : List Nat) (c : Conn)
    (pos : Nat) (hc : c.crypto_initialized = true) :
    (processPacket T data c pos).1.crypto_initialized = true := by
  rcases processPacket_cases T data c pos with hE | ⟨h, b1, hH, hE⟩ |
    ⟨h, b1, payload, c3, hH, hP, hE⟩ | ⟨h, b1, payload, pn, c3, iao, hH, hP, hE⟩
  · rw [hE]; exact hc
  · rw [hE]; exact serverInit_ci_mono c h hc
  · rw [hE]
    have hq := payloadReceived_quiet T (latchPeerCid (serverInit c h) h) payload
    rw [hP] at hq
    exact (hq.2.2.2.2.2.2.2.trans (latchPeerCid_fields (serverInit c h) h).2.2.2.2.2.2.1).trans
      (serverInit_ci_mono c h hc)
  · rw [hE]
    have hq := payloadReceived_quiet T (latchPeerCid (serverInit c h) h) payload
    rw [hP] at hq
    exact ((finishPacket_fields c3 (getEpoch h.packet_type) pn iao).2.2.2.2.2.2.2.trans
      (hq.2.2.2.2.2.2.2.trans (latchPeerCid_fields (serverInit c h) h).2.2.2.2.2.2.1)).trans
      (serverInit_ci_mono c h hc)

theorem processPacket_invalid_initial_keep (T : TlsHandler) (data : List Nat) (c : Conn)
    (pos : Nat) (hT : noInitialKeyUpdates T)
    (hcl : c.is_client = true ∨ c.crypto_initialized = true)
    (hIv : (c.crypto.get Epoch.initial).send.valid = false ∧
           (c.crypto.get Epoch.initial).recv.valid = false) :
    ((processPacket T data c pos).1.crypto.get Epoch.initial).send.valid = false ∧
    ((processPacket T data c pos).1.crypto.get Epoch.initial).recv.valid = false := by
  rcases processPacket_cases T data c pos with hE | ⟨h, b1, hH, hE⟩ |
    ⟨h, b1, payload, c3, hH, hP, hE⟩ | ⟨h, b1, payload, pn, c3, iao, hH, hP, hE⟩
  · rw [hE]; exact hIv
  · rw [hE, serverInit_skip c h hcl]; exact hIv
  · rw [hE]
    have hfix := payloadReceived_initial_fixed T hT (latchPeerCid (serverInit c h) h) payload
    rw [hP] at hfix
    rw [show (c3, (none : Option Bool)).1 = c3 from rfl] at hfix
    rw [hfix, (latchPeerCid_fields (serverInit c h) h).2.2.2.2.2.1, serverInit_skip c h hcl]
    exact hIv
  · rw [hE]
    have hfix := payloadReceived_initial_fixed T hT (latchPeerCid (serverInit c h) h) payload
    rw [hP] at hfix
    rw [show (c3, some iao).1 = c3 from rfl] at hfix
    rcases finishPacket_crypto c3 (getEpoch h.packet_type) pn iao with hcr | hcr
    · rw [hcr, hfix, (latchPeerCid_fields (serverInit c h) h).2.2.2.2.2.1,
          serverInit_skip c h hcl]
      exact hIv
    · rw [hcr, EpochMap.get_set_same]
      exact ⟨rfl, rfl⟩

theorem receiveLoop_core (T : TlsHandler) (data : List Nat) :
    ∀ (fuel : Nat) (c : Conn) (pos : Nat) (flag : Bool),
      (receiveLoop T data fuel c pos flag).1.is_client = c.is_client ∧
      (receiveLoop T data fuel c pos flag).1.packet_number = c.packet_number := by
  intro fuel
  induction fuel with
  | zero => intro c pos flag; exact ⟨rfl, rfl⟩
  | succ n ih =>
    intro c pos flag
    unfold receiveLoop
    split
    · exact ⟨rfl, rfl⟩
    · split
      next c2 hE =>
        have hc := processPacket_core T data c pos
        rw [hE] at hc
        exact ⟨hc.1, hc.2.2⟩
      next c2 pos2 iao hE =>
        have hc := processPacket_core T data c pos
        rw [hE] at hc
        have hi := ih c2 pos2 (flag || !iao)
        exact ⟨hi.1.trans hc.1, hi.2.trans hc.2.2⟩

theorem receiveLoop_flag_send_ack (T : TlsHandler) (data : List Nat) :
    ∀ (fuel : Nat) (c : Conn) (pos : Nat) (flag : Bool),
      (flag = true → c.send_ack = true) →
      (receiveLoop T data fuel c pos flag).2 = true →
      (receiveLoop T data fuel c pos flag).1.send_ack = true := by
  intro fuel
  induction fuel with
  | zero => intro c pos flag hinv hflag; exact hinv hflag
  | succ n ih =>
    intro c pos flag hinv
    unfold receiveLoop
    split
    · exact hinv
    · split
      next c2 hE =>
        intro hflag
        have := processPacket_send_ack_mono T data c pos (hinv hflag)
        rw [hE] at this
        exact this
      next c2 pos2 iao hE =>
        apply ih c2 pos2 (flag || !iao)
        intro hor
        rcases Bool.or_eq_true_iff.mp hor with hf | hni
        · have := processPacket_send_ack_mono T data c pos (hinv hf)
          rw [hE] at this
          exact this
        · have hiao : iao = false := by
            cases iao
            · rfl
            · exact Bool.noConfusion hni
          rw [hiao] at hE
          have := processPacket_send_ack_elicit T data c pos pos2 (by rw [hE])
          rw [hE] at this
          exact this

theorem receiveLoop_send_ack_mono (T : TlsHandler) (data : List Nat) :
    ∀ (fuel : Nat) (c : Conn) (pos : Nat) (flag : Bool),
      c.send_ack = true → (receiveLoop T data fuel c pos flag).1.send_ack = true := by
  intro fuel
  induction fuel with
  | zero => intro c pos flag hc; exact hc
  | succ n ih =>
    intro c pos flag hc
    unfold receiveLoop
    split
    · exact hc
    · split
      next c2 hE =>
        have := processPacket_send_ack_mono T data c pos hc
        rw [hE] at this
        exact this
      next c2 pos2 iao hE =>
        apply ih
        have := processPacket_send_ack_mono T data c pos hc
        rw [hE] at this
        exact this

theorem receiveLoop_peer_cid_keep (T : TlsHandler) (data : List Nat) :
    ∀ (fuel : Nat) (c : Conn) (pos : Nat) (flag : Bool),
      c.peer_cid_set = true →
      (receiveLoop T data fuel c pos flag).1.peer_cid = c.peer_cid ∧
      (receiveLoop T data fuel c pos flag).1.peer_cid_set = true := by
  intro fuel
  induction fuel with
  | zero => intro c pos flag hp; exact ⟨rfl, hp⟩
  | succ n ih =>
    intro c pos flag hp
    unfold receiveLoop
    split
    · exact ⟨rfl, hp⟩
    · split
      next c2 hE =>
        have := processPacket_peer_cid_keep T data c pos hp
        rw [hE] at this
        exact this
      next c2 pos2 iao hE =>
        have h1 := processPacket_peer_cid_keep T data c pos hp
        rw [hE] at h1
        have h2 := ih c2 pos2 (flag || !iao) h1.2
        exact ⟨h2.1.trans h1.1, h2.2⟩

theorem receiveLoop_ci_mono (T : TlsHandler) (data : List Nat) :
    ∀ (fuel : Nat) (c : Conn) (pos : Nat) (flag : Bool),
      c.crypto_initialized = true →
      (receiveLoop T data fuel c pos flag).1.crypto_initialized = true := by
  intro fuel
  induction fuel with
  | zero => intro c pos flag hc; exact hc
  | succ n ih =>
    intro c pos flag hc
    unfold receiveLoop
    split
    · exact hc
    · split
      next c2 hE =>
        have := processPacket_ci_mono T data c pos hc
        rw [hE] at this
        exact this
      next c2 pos2 iao hE =>
        apply ih
        have := processPacket_ci_mono T data c pos hc
        rw [hE] at this
        exact this

theorem receiveLoop_invalid_initial_keep (T : TlsHandler) (data : List Nat)
    (hT : noInitialKeyUpdates T) :
    ∀ (fuel : Nat) (c : Conn) (pos : Nat) (flag : Bool),
      (c.is_client = true ∨ c.crypto_initialized = true) →
      ((c.crypto.get Epoch.initial).send.valid = false ∧
       (c.crypto.get Epoch.initial).recv.valid = false) →
      ((receiveLoop T data fuel c pos flag).1.crypto.get Epoch.initial).send.valid = false ∧
      ((receiveLoop T data fuel c pos flag).1.crypto.get Epoch.initial).recv.valid = false := by
  intro fuel
  induction fuel with
  | zero => intro c pos flag _ hIv; exact hIv
  | succ n ih =>
    intro c pos flag hcl hIv
    unfold receiveLoop
    split
    · exact hIv
    · split
      next c2 hE =>
        have := processPacket_invalid_initial_keep T data c pos hT hcl hIv
        rw [hE] at this
        exact this
      next c2 pos2 iao hE =>
        apply ih
        · rcases hcl with hcl | hcl
          · left
            have := (processPacket_core T data c pos).1
            rw [hE] at this
            exact this.trans hcl
          · right
            have := processPacket_ci_mono T data c pos hcl
            rw [hE] at this
            exact this
        · have := processPacket_invalid_initial_keep T data c pos hT hcl hIv
          rw [hE] at this
          exact this

theorem beBytes_length (n : Nat) : ∀ v : Nat, (beBytes n v).length = n := by
  induction n with
  | zero => intro v; rfl
  | succ k ih => intro v; simp [beBytes, ih]

theorem writeHandshake_skip (c : Conn) (e : Epoch)
    (hg : (c.crypto.get e).send.valid = false ∨ c.send_buffer.length = 0) :
    writeHandshake c e = (none, c) := by
  unfold writeHandshake
  rw [if_pos hg]

theorem writeHandshake_go (c : Conn) (e : Epoch)
    (hv : (c.crypto.get e).send.valid = true) (hb : c.send_buffer.length ≠ 0) :
    writeHandshake c e =
      (some (whDatagram c e, whAckW c e),
       { c with send_buffer := [],
                send_ack := c.send_ack && !(whAckW c e),
                packet_number := c.packet_number.set e (c.packet_number.get e + 1) }) := by
  unfold writeHandshake
  rw [if_neg]
  intro hg
  rcases hg with hg | hg
  · rw [hv] at hg
    exact Bool.noConfusion hg
  · exact hb hg

theorem writeHandshake_emitted (c : Conn) (e : Epoch) (r : List Nat × Bool) (c2 : Conn)
    (hE : writeHandshake c e = (some r, c2)) :
    (c.crypto.get e).send.valid = true ∧ c.send_buffer.length ≠ 0 ∧
    r = (whDatagram c e, whAckW c e) ∧
    c2 = { c with send_buffer := [],
                  send_ack := c.send_ack && !(whAckW c e),
                  packet_number := c.packet_number.set e (c.packet_number.get e + 1) } := by
  by_cases hv : (c.crypto.get e).send.valid = true
  · by_cases hb : c.send_buffer.length = 0
    · rw [writeHandshake_skip c e (Or.inr hb)] at hE
      exact absurd (congrArg Prod.fst hE) (by simp)
    · have hgo := writeHandshake_go c e hv hb
      rw [hgo] at hE
      have h1 := congrArg Prod.fst hE
      have h2 := congrArg Prod.snd hE
      simp only at h1 h2
      exact ⟨hv, hb, (Option.some.inj h1).symm, h2.symm⟩
  · rw [writeHandshake_skip c e (Or.inl (Bool.not_eq_true _ ▸ Bool.eq_false_iff.mpr hv))] at hE
    exact absurd (congrArg Prod.fst hE) (by simp)

theorem writeApplication_skip (c : Conn)
    (hg : (c.crypto.get Epoch.oneRTT).send.valid = false ∨ c.ack.get Epoch.oneRTT = []) :
    writeApplication c = (none, c) := by
  unfold writeApplication
  rw [if_pos hg]

theorem writeApplication_go (c : Conn)
    (hv : (c.crypto.get Epoch.oneRTT).send.valid = true)
    (ha : c.ack.get Epoch.oneRTT ≠ []) :
    writeApplication c =
      (some (waDatagram c, whAckW c Epoch.oneRTT),
       { c with send_ack := c.send_ack && !(whAckW c Epoch.oneRTT),
                packet_number :=
                  c.packet_number.set Epoch.oneRTT
                    (c.packet_number.get Epoch.oneRTT + 1) }) := by
  unfold writeApplication
  rw [if_neg]
  intro hg
  rcases hg with hg | hg
  · rw [hv] at hg
    exact Bool.noConfusion hg
  · exact ha hg

theorem writeApplication_emitted (c : Conn) (r : List Nat × Bool) (c2 : Conn)
    (hE : writeApplication c = (some r, c2)) :
    (c.crypto.get Epoch.oneRTT).send.valid = true ∧ c.ack.get Epoch.oneRTT ≠ [] ∧
    r = (waDatagram c, whAckW c Epoch.oneRTT) ∧
    c2 = { c with send_ack := c.send_ack && !(whAckW c Epoch.oneRTT),
                  packet_number :=
                    c.packet_number.set Epoch.oneRTT
                      (c.packet_number.get Epoch.oneRTT + 1) } := by
  by_cases hv : (c.crypto.get Epoch.oneRTT).send.valid = true
  · by_cases ha : c.ack.get Epoch.oneRTT = []
    · rw [writeApplication_skip c (Or.inr ha)] at hE
      exact absurd (congrArg Prod.fst hE) (by simp)
    · have hgo := writeApplication_go c hv ha
      rw [hgo] at hE
      have h1 := congrArg Prod.fst hE
      have h2 := congrArg Prod.snd hE
      simp only at h1 h2
      exact ⟨hv, ha, (Option.some.inj h1).symm, h2.symm⟩
  · rw [writeApplication_skip c (Or.inl (Bool.not_eq_true _ ▸ Bool.eq_false_iff.mpr hv))] at hE
    exact absurd (congrArg Prod.fst hE) (by simp)

theorem countEpoch_nil (e : Epoch) : countEpoch e [] = 0 := rfl

theorem countEpoch_append (e : Epoch) (a b : List (Epoch × List Nat × Bool)) :
    countEpoch e (a ++ b) = countEpoch e a + countEpoch e b := by
  unfold countEpoch
  exact List.countP_append _ _ _

theorem countEpoch_tagOut (e e1 : Epoch) (r : Option (List Nat × Bool)) :
    countEpoch e (tagOut e1 r) = if r.isSome = true ∧ e1 = e then 1 else 0 := by
  rcases r with _ | ⟨d, w⟩
  · simp [tagOut, countEpoch]
  · by_cases he : e1 = e
    · subst he
      simp [tagOut, countEpoch, List.countP, List.countP.go]
    · simp [tagOut, countEpoch, List.countP, List.countP.go, he]

theorem writeHandshake_pn (c : Conn) (e e2 : Epoch) :
    (writeHandshake c e).2.packet_number.get e2 =
      c.packet_number.get e2 +
        (if (writeHandshake c e).1.isSome = true ∧ e = e2 then 1 else 0) := by
  by_cases hv : (c.crypto.get e).send.valid = true
  · by_cases hb : c.send_buffer.length = 0
    · rw [writeHandshake_skip c e (Or.inr hb)]
      simp
    · rw [writeHandshake_go c e hv hb]
      by_cases he : e = e2
      · subst he
        simp [EpochMap.get_set_same]
      · simp only [EpochMap.get_set_ne _ _ _ _ he]
        simp [he]
  · rw [writeHandshake_skip c e
      (Or.inl (Bool.not_eq_true _ ▸ Bool.eq_false_iff.mpr hv))]
    simp

theorem writeApplication_pn (c : Conn) (e2 : Epoch) :
    (writeApplication c).2.packet_number.get e2 =
      c.packet_number.get e2 +
        (if (writeApplication c).1.isSome = true ∧ Epoch.oneRTT = e2 then 1 else 0) := by
  by_cases hv : (c.crypto.get Epoch.oneRTT).send.valid = true
  · by_cases ha : c.ack.get Epoch.oneRTT = []
    · rw [writeApplication_skip c (Or.inr ha)]
      simp
    · rw [writeApplication_go c hv ha]
      by_cases he : Epoch.oneRTT = e2
      · subst he
        simp [EpochMap.get_set_same]
      · simp only [EpochMap.get_set_ne _ _ _ _ he]
        simp [he]
  · rw [writeApplication_skip c
      (Or.inl (Bool.not_eq_true _ ▸ Bool.eq_false_iff.mpr hv))]
    simp

theorem pendingDatagrams_pn (c : Conn) (e : Epoch) :
    (pendingDatagrams c).2.packet_number.get e =
      c.packet_number.get e + countEpoch e (pendingDatagrams c).1 := by
  unfold pendingDatagrams
  simp only [countEpoch_append, countEpoch_tagOut]
  rw [writeApplication_pn ((writeHandshake (writeHandshake c Epoch.initial).2 Epoch.handshake).2) e,
      writeHandshake_pn ((writeHandshake c Epoch.initial).2) Epoch.handshake e,
      writeHandshake_pn c Epoch.initial e]
  omega

theorem connectionMade_pn (T : TlsHandler) (c : Conn) :
    (connectionMade T c).packet_number = c.packet_number := by
  unfold connectionMade
  split
  · exact (handleMessage_quiet T _ []).2.2.2.2.2.2.1
  · rfl

theorem datagramReceived_pn (T : TlsHandler) (c : Conn) (data : List Nat) :
    (datagramReceived T c data).packet_number = c.packet_number :=
  (receiveLoop_core T data (data.length + 1) c 0 false).2

theorem runOps_pn (T : TlsHandler) (e : Epoch) :
    ∀ (ops : List Op) (c : Conn),
      (runOps T c ops).1.packet_number.get e =
        c.packet_number.get e + countEpoch e (runOps T c ops).2 := by
  intro ops
  induction ops with
  | nil => intro c; simp [runOps, countEpoch_nil]
  | cons op rest ih =>
    intro c
    rcases op with _ | d | _
    · simp only [runOps, runOp]
      rw [ih (connectionMade T c), connectionMade_pn T c]
      simp [countEpoch_append, countEpoch_nil]
    · simp only [runOps, runOp]
      rw [ih (datagramReceived T c d), datagramReceived_pn T c d]
      simp [countEpoch_append, countEpoch_nil]
    · simp only [runOps, runOp]
      rw [countEpoch_append, ih (pendingDatagrams c).2, pendingDatagrams_pn c e]
      omega

/-- C5: For every epoch, the send packet number starts at 0, advances by
exactly one for each encrypted outbound packet produced at that epoch and
never otherwise: after any sequence of operations it equals the count of
datagrams the core has emitted at that epoch. -/
theorem C5_send_packet_number_counts_emissions (T : TlsHandler) (isClient : Bool)
    (hostCid peerCid : List Nat) (tls0 : Nat) (ops : List Op) (e : Epoch) :
    (mkConn isClient hostCid peerCid tls0).packet_number.get e = 0 ∧
    (runOps T (mkConn isClient hostCid peerCid tls0) ops).1.packet_number.get e =
      countEpoch e (runOps T (mkConn isClient hostCid peerCid tls0) ops).2 := by
  have h0 : (mkConn isClient hostCid peerCid tls0).packet_number.get e = 0 := by
    cases e <;> rfl
  refine ⟨h0, ?_⟩
  rw [runOps_pn, h0, Nat.zero_add]

/-- C8: Within one pending_datagrams invocation, the emitted datagrams are
ordered Initial, then Handshake, then 1-RTT, with at most one datagram per
epoch, hence at most three datagrams in total. -/
theorem C8_pending_datagrams_order (c : Conn) :
    List.Sublist ((pendingDatagrams c).1.map (fun x => x.1))
      [Epoch.initial, Epoch.handshake, Epoch.oneRTT] ∧
    (pendingDatagrams c).1.length ≤ 3 := by
  unfold pendingDatagrams
  cases h1 : (writeHandshake c Epoch.initial).1 <;>
    cases h2 : (writeHandshake (writeHandshake c Epoch.initial).2 Epoch.handshake).1 <;>
    cases h3 : (writeApplication
      (writeHandshake (writeHandshake c Epoch.initial).2 Epoch.handshake).2).1 <;>
    constructor <;>
    simp [tagOut, h1, h2, h3]

theorem writeHandshake_none (c : Conn) (e : Epoch) (c2 : Conn)
    (hE : writeHandshake c e = (none, c2)) : c2 = c := by
  by_cases hv : (c.crypto.get e).send.valid = true
  · by_cases hb : c.send_buffer.length = 0
    · rw [writeHandshake_skip c e (Or.inr hb)] at hE
      exact (congrArg Prod.snd hE).symm
    · rw [writeHandshake_go c e hv hb] at hE
      exact absurd (congrArg Prod.fst hE) (by simp)
  · rw [writeHandshake_skip c e
      (Or.inl (Bool.not_eq_true _ ▸ Bool.eq_false_iff.mpr hv))] at hE
    exact (congrArg Prod.snd hE).symm

theorem writeApplication_none (c : Conn) (c2 : Conn)
    (hE : writeApplication c = (none, c2)) : c2 = c := by
  by_cases hv : (c.crypto.get Epoch.oneRTT).send.valid = true
  · by_cases ha : c.ack.get Epoch.oneRTT = []
    · rw [writeApplication_skip c (Or.inr ha)] at hE
      exact (congrArg Prod.snd hE).symm
    · rw [writeApplication_go c hv ha] at hE
      exact absurd (congrArg Prod.fst hE) (by simp)
  · rw [writeApplication_skip c
      (Or.inl (Bool.not_eq_true _ ▸ Bool.eq_false_iff.mpr hv))] at hE
    exact (congrArg Prod.snd hE).symm

/-- C9: a handshake datagram is produced only when that epoch's send crypto
is valid and the TLS outbound buffer is non-empty; producing it copies the
whole buffer into the datagram and drains the buffer; a 1-RTT datagram is
produced only when the 1-RTT send crypto is valid and the 1-RTT range set
is non-empty. -/
theorem C9_emission_guards_and_drain (c : Conn) (e : Epoch) (d : List Nat) (w : Bool)
    (c2 : Conn) :
    (writeHandshake c e = (some (d, w), c2) →
       (c.crypto.get e).send.valid = true ∧ c.send_buffer ≠ [] ∧ c2.send_buffer = [] ∧
       ∃ x y, d = x ++ c.send_buffer ++ y) ∧
    (writeApplication c = (some (d, w), c2) →
       (c.crypto.get Epoch.oneRTT).send.valid = true ∧ c.ack.get Epoch.oneRTT ≠ []) := by
  constructor
  · intro hE
    obtain ⟨hv, hb, hr, hc2⟩ := writeHandshake_emitted c e (d, w) c2 hE
    refine ⟨hv, ?_, ?_, ?_⟩
    · intro hnil
      exact hb (by rw [hnil]; rfl)
    · rw [hc2]
    · have hd : d = whDatagram c e := congrArg Prod.fst hr
      refine ⟨whHdr c e ++ pushUintVar FRAME_CRYPTO ++ pushUintVar 0 ++
                beBytes 2 (2 ^ 14 + c.send_buffer.length),
              whPadding c e ++ whAckBytes c e ++ List.replicate AEAD_TAG_SIZE 0, ?_⟩
      rw [hd]
      unfold whDatagram encryptPacket whPayload whCryptoFrame
      simp [List.append_assoc]
  · intro hE
    obtain ⟨hv, ha, _, _⟩ := writeApplication_emitted c (d, w) c2 hE
    exact ⟨hv, ha⟩

theorem C9_emission_guards_and_drain_witness :
    (clientInitConn.crypto.get Epoch.initial).send.valid = true ∧
    clientInitConn.send_buffer ≠ [] ∧
    (writeHandshake clientInitConn Epoch.initial).2.send_buffer = [] := by
  have hE := writeHandshake_go clientInitConn Epoch.initial (by decide) (by decide)
  have h := (C9_emission_guards_and_drain clientInitConn Epoch.initial
      (whDatagram clientInitConn Epoch.initial) (whAckW clientInitConn Epoch.initial)
      ({ clientInitConn with
           send_buffer := [],
           send_ack := clientInitConn.send_ack && !(whAckW clientInitConn Epoch.initial),
           packet_number := clientInitConn.packet_number.set Epoch.initial
             (clientInitConn.packet_number.get Epoch.initial + 1) })).1 hE
  refine ⟨h.1, h.2.1, ?_⟩
  rw [hE]

/-- C4: receiving a datagram that contained a non-ack-only packet leaves
send_ack true; the send path clears send_ack exactly when it writes an ACK
frame into the outgoing packet, and a packet without an ACK frame leaves
send_ack unchanged. -/
theorem C4_send_ack_flag (T : TlsHandler) (c : Conn) (data : List Nat) (e : Epoch)
    (d : List Nat) (w : Bool) (c2 : Conn) :
    ((datagramReceivedFlag T c data).2 = true →
       (datagramReceivedFlag T c data).1.send_ack = true) ∧
    (writeHandshake c e = (some (d, w), c2) →
       c2.send_ack = (c.send_ack && !w) ∧ (w = true → c.send_ack = true)) ∧
    (writeHandshake c e = (none, c2) → c2.send_ack = c.send_ack) ∧
    (writeApplication c = (some (d, w), c2) →
       c2.send_ack = (c.send_ack && !w) ∧ (w = true → c.send_ack = true)) ∧
    (writeApplication c = (none, c2) → c2.send_ack = c.send_ack) := by
  refine ⟨?_, ?_, ?_, ?_, ?_⟩
  · exact receiveLoop_flag_send_ack T data (data.length + 1) c 0 false
      (fun hff => Bool.noConfusion hff)
  · intro hE
    obtain ⟨hv, hb, hr, hc2⟩ := writeHandshake_emitted c e (d, w) c2 hE
    have hw : w = whAckW c e := congrArg Prod.snd hr
    constructor
    · rw [hc2, hw]
    · intro hwt
      rw [hw] at hwt
      exact (Bool.and_eq_true _ _).mp hwt |>.1
  · intro hE
    rw [writeHandshake_none c e c2 hE]
  · intro hE
    obtain ⟨hv, ha, hr, hc2⟩ := writeApplication_emitted c (d, w) c2 hE
    have hw : w = whAckW c Epoch.oneRTT := congrArg Prod.snd hr
    constructor
    · rw [hc2, hw]
    · intro hwt
      rw [hw] at hwt
      exact (Bool.and_eq_true _ _).mp hwt |>.1
  · intro hE
    rw [writeApplication_none c c2 hE]

theorem C4_send_ack_flag_witness :
    (datagramReceivedFlag trivTls oneRttRecvConn dgramCrypto).1.send_ack = true ∧
    clientInitAckConn.send_ack = true := by
  constructor
  · exact (C4_send_ack_flag trivTls oneRttRecvConn dgramCrypto Epoch.initial [] false
      oneRttRecvConn).1 (by decide)
  · have hE := writeHandshake_go clientInitAckConn Epoch.initial (by decide) (by decide)
    exact ((C4_send_ack_flag trivTls clientInitAckConn [] Epoch.initial
      (whDatagram clientInitAckConn Epoch.initial) (whAckW clientInitAckConn Epoch.initial)
      ({ clientInitAckConn with
           send_buffer := [],
           send_ack := clientInitAckConn.send_ack && !(whAckW clientInitAckConn Epoch.initial),
           packet_number := clientInitAckConn.packet_number.set Epoch.initial
             (clientInitAckConn.packet_number.get Epoch.initial + 1) })).2.1 hE).2 (by decide)

/-- C1 (amended): an emitted Initial datagram that carries no ACK frame is
exactly 1280 bytes including the AEAD tag, whenever the header and CRYPTO
frame fit below the 1264-byte padding target; the padding is computed
before the optional ACK frame is appended, so an Initial datagram that also
carries an ACK frame exceeds 1280 bytes by the size of that frame. -/
theorem C1_initial_padding_amended (c : Conn) (d : List Nat) (c2 : Conn)
    (hE : writeHandshake c Epoch.initial = (some (d, false), c2))
    (hfit : whHeaderSize c Epoch.initial + (whCryptoFrame c).length ≤
      PACKET_MAX_SIZE - AEAD_TAG_SIZE) :
    d.length = PACKET_MAX_SIZE := by
  obtain ⟨hv, hb, hr, hc2⟩ := writeHandshake_emitted c Epoch.initial (d, false) c2 hE
  have hd : d = whDatagram c Epoch.initial := congrArg Prod.fst hr
  have hw : false = whAckW c Epoch.initial := congrArg Prod.snd hr
  have hab : whAckBytes c Epoch.initial = [] := by
    unfold whAckBytes
    rw [← hw]
    simp
  rw [hd]
  unfold whDatagram encryptPacket whHdr whPayload whPadding
  rw [hab, if_pos rfl]
  simp only [List.length_append, List.length_replicate, beBytes_length, List.length_nil]
  unfold whHeaderSize at hfit ⊢
  unfold PACKET_MAX_SIZE AEAD_TAG_SIZE at hfit ⊢
  omega

set_option maxRecDepth 20000 in
/-- C1 counterexample: this concrete connection emits an Initial datagram
that carries an ACK frame and is 1285 bytes long, not 1280. -/
theorem C1_initial_padding_counterexample :
    (writeHandshake clientInitAckConn Epoch.initial).1.map
        (fun p => (p.1.length, p.2)) = some (1285, true) ∧
    (1285 : Nat) ≠ 1280 := by
  constructor
  · decide
  · decide

theorem C1_initial_padding_witness :
    (whDatagram clientInitConn Epoch.initial).length = PACKET_MAX_SIZE := by
  have hE := writeHandshake_go clientInitConn Epoch.initial (by decide) (by decide)
  have hw : whAckW clientInitConn Epoch.initial = false := by decide
  exact C1_initial_padding_amended clientInitConn
    (whDatagram clientInitConn Epoch.initial)
    ({ clientInitConn with
         send_buffer := [],
         send_ack := clientInitConn.send_ack && !(whAckW clientInitConn Epoch.initial),
         packet_number := clientInitConn.packet_number.set Epoch.initial
           (clientInitConn.packet_number.get Epoch.initial + 1) })
    (by rw [hE, hw]) (by decide)

set_option maxRecDepth 2000 in
/-- C2 (the code evaluated at the failing input): a payload consisting of a
single PING frame is classified ack-only by _payload_received, and a 1-RTT
packet carrying only a PING frame is fully processed (its packet number is
recorded) yet leaves send_ack false. -/
theorem C2_ping_classified_ack_only :
    (payloadReceived trivTls oneRttRecvConn [1]).2 = some true ∧
    (datagramReceived trivTls oneRttRecvConn dgramPing).send_ack = false ∧
    (datagramReceived trivTls oneRttRecvConn dgramPing).ack.get Epoch.oneRTT = [(0, 1)] := by
  refine ⟨by decide, by decide, by decide⟩

theorem processPacket_header_fail (T : TlsHandler) (data : List Nat) (c : Conn)
    (pos : Nat)
    (hH : pullQuicHeader c.host_cid.length { data := data, pos := pos } = none) :
    processPacket T data c pos = (c, none) := by
  simp only [processPacket, hH]

theorem processPacket_trunc_fail (T : TlsHandler) (data : List Nat) (c : Conn)
    (pos : Nat) (h : QuicHeader) (b1 : RBuf)
    (hH : pullQuicHeader c.host_cid.length { data := data, pos := pos } = some (h, b1))
    (hB : pullBytesR h.rest_length b1 = none) :
    processPacket T data c pos = (c, none) := by
  simp only [processPacket, hH, hB]

theorem processPacket_decrypt_fail (T : TlsHandler) (data : List Nat) (c : Conn)
    (pos : Nat) (h : QuicHeader) (b1 : RBuf) (w : List Nat × RBuf)
    (hH : pullQuicHeader c.host_cid.length { data := data, pos := pos } = some (h, b1))
    (hB : pullBytesR h.rest_length b1 = some w)
    (hD : decryptPacket ((serverInit c h).crypto.get (getEpoch h.packet_type)).recv
      ((data.drop pos).take (b1.pos + h.rest_length - pos)) (b1.pos - pos) = none) :
    processPacket T data c pos = (serverInit c h, none) := by
  simp only [processPacket, hH, hB, hD]

theorem receiveLoop_abandons (T : TlsHandler) (data : List Nat) (c : Conn)
    (pos fuel : Nat) (flag : Bool) (hpos : pos < data.length)
    (h2 : (processPacket T data c pos).2 = none) :
    receiveLoop T data (fuel + 1) c pos flag = ((processPacket T data c pos).1, flag) := by
  unfold receiveLoop
  rw [if_neg (by omega)]
  rcases hpp : processPacket T data c pos with ⟨c2, o⟩
  rcases o with _ | p
  · rfl
  · rw [hpp] at h2
    exact absurd h2 (by simp)

/-- C3 (amended): a packet whose header fails to parse, or that is
truncated, leaves the connection state exactly unchanged; a packet that
fails decryption leaves the state unchanged except that a server that had
not yet initialized crypto keeps the Initial keys it derived (and the
crypto_initialized latch) from the packet header before decryption was
attempted; in every failure case the remaining coalesced packets of the
datagram are not processed. -/
theorem C3_parse_decrypt_failure_abandons (T : TlsHandler) (data : List Nat) (c : Conn)
    (pos fuel : Nat) (flag : Bool) :
    (pullQuicHeader c.host_cid.length { data := data, pos := pos } = none →
       processPacket T data c pos = (c, none)) ∧
    (∀ h b1, pullQuicHeader c.host_cid.length { data := data, pos := pos } = some (h, b1) →
       pullBytesR h.rest_length b1 = none →
       processPacket T data c pos = (c, none)) ∧
    (∀ h b1 w, pullQuicHeader c.host_cid.length { data := data, pos := pos } = some (h, b1) →
       pullBytesR h.rest_length b1 = some w →
       decryptPacket ((serverInit c h).crypto.get (getEpoch h.packet_type)).recv
         ((data.drop pos).take (b1.pos + h.rest_length - pos)) (b1.pos - pos) = none →
       processPacket T data c pos = (serverInit c h, none)) ∧
    (pos < data.length → (processPacket T data c pos).2 = none →
       receiveLoop T data (fuel + 1) c pos flag = ((processPacket T data c pos).1, flag)) := by
  refine ⟨?_, ?_, ?_, ?_⟩
  · intro hH
    exact processPacket_header_fail T data c pos hH
  · intro h b1 hH hB
    exact processPacket_trunc_fail T data c pos h b1 hH hB
  · intro h b1 w hH hB hD
    exact processPacket_decrypt_fail T data c pos h b1 w hH hB hD
  · intro hpos h2
    exact receiveLoop_abandons T data c pos fuel flag hpos h2

/-- C3 counterexample: a fresh server receiving an undecryptable Handshake
packet abandons the packet but still mutates connection state:
crypto_initialized flips to true and Initial keys become valid. -/
theorem C3_counterexample_server_init_persists :
    srvConn.crypto_initialized = false ∧
    (datagramReceived trivTls srvConn dgramHS).crypto_initialized = true ∧
    ((datagramReceived trivTls srvConn dgramHS).crypto.get Epoch.initial).recv.valid = true := by
  refine ⟨rfl, by decide, by decide⟩

theorem C3_parse_decrypt_failure_abandons_witness :
    processPacket trivTls dgramHS srvConn 0 = (serverInit srvConn hsHeader, none) :=
  (C3_parse_decrypt_failure_abandons trivTls dgramHS srvConn 0 0 false).2.2.1
    hsHeader { data := dgramHS, pos := 9 }
    ((dgramHS.drop 9).take 18, { data := dgramHS, pos := 27 })
    (by decide) (by decide) (by decide)

/-- C6: the peer CID latches exactly once: while peer_cid_set is false, the
first successfully decrypted packet installs that packet's source CID and
sets the flag; once the flag is set, datagram_received changes neither the
peer CID nor the flag. -/
theorem C6_peer_cid_latches_once (T : TlsHandler) (c : Conn) (data : List Nat) (pos : Nat) :
    (c.peer_cid_set = true →
       (datagramReceived T c data).peer_cid = c.peer_cid ∧
       (datagramReceived T c data).peer_cid_set = true) ∧
    (∀ h b1 w r, c.peer_cid_set = false →
       pullQuicHeader c.host_cid.length { data := data, pos := pos } = some (h, b1) →
       pullBytesR h.rest_length b1 = some w →
       decryptPacket ((serverInit c h).crypto.get (getEpoch h.packet_type)).recv
         ((data.drop pos).take (b1.pos + h.rest_length - pos)) (b1.pos - pos) = some r →
       (processPacket T data c pos).1.peer_cid = h.source_cid ∧
       (processPacket T data c pos).1.peer_cid_set = true) := by
  constructor
  · intro hp
    exact receiveLoop_peer_cid_keep T data (data.length + 1) c 0 false hp
  · intro h b1 w r hp hH hB hD
    rcases r with ⟨ph, payload, pn⟩
    have hlatch : latchPeerCid (serverInit c h) h =
        { serverInit c h with peer_cid := h.source_cid, peer_cid_set := true } :=
      latchPeerCid_fires (serverInit c h) h
        (((serverInit_fields c h).2.2.2.1).trans hp)
    have hq := payloadReceived_quiet T (latchPeerCid (serverInit c h) h) payload
    rcases hP : payloadReceived T (latchPeerCid (serverInit c h) h) payload with ⟨c3, o⟩
    rw [hP] at hq
    have hcid : c3.peer_cid = h.source_cid := by
      have := hq.2.2.1
      rw [hlatch] at this
      exact this
    have hset : c3.peer_cid_set = true := by
      have := hq.2.2.2.1
      rw [hlatch] at this
      exact this
    rcases o with _ | iao
    · simp only [processPacket, hH, hB, hD, hP]
      exact ⟨hcid, hset⟩
    · simp only [processPacket, hH, hB, hD, hP]
      obtain ⟨_, _, g3, g4, _, _, _, _⟩ :=
        finishPacket_fields c3 (getEpoch h.packet_type) pn iao
      exact ⟨g3.trans hcid, g4.trans hset⟩

theorem C6_peer_cid_latches_once_witness :
    (processPacket trivTls dgramInit srvConn 0).1.peer_cid = [5] ∧
    (processPacket trivTls dgramInit srvConn 0).1.peer_cid_set = true :=
  (C6_peer_cid_latches_once trivTls srvConn dgramInit 0).2 initHeader
    { data := dgramInit, pos := 11 }
    ((dgramInit.drop 11).take 19, { data := dgramInit, pos := 30 })
    ((dgramInit.drop 0).take 13, [0], 0)
    rfl (by decide) (by decide) (by decide)

theorem serverInit_cryptoLe (c : Conn) (h : QuicHeader) :
    cryptoLe c.crypto (serverInit c h).crypto := by
  unfold serverInit
  split
  · intro e
    by_cases he : Epoch.initial = e
    · subst he
      rw [EpochMap.get_set_same]
      exact ⟨fun _ => rfl, fun _ => rfl⟩
    · rw [EpochMap.get_set_ne _ _ _ _ he]
      exact ⟨fun hv => hv, fun hv => hv⟩
  · exact cryptoLe_refl c.crypto

/-- C7: after datagram_received successfully processes an Initial-epoch
packet (decryption and payload walk complete), both directions of the
Initial crypto pair are invalid; this persists to the end of the call; and
successfully processing a Handshake or 1-RTT packet never invalidates any
crypto context. -/
theorem C7_initial_teardown (T : TlsHandler) (data : List Nat) (c : Conn) (pos : Nat) :
    (∀ h b1 pr,
       pullQuicHeader c.host_cid.length { data := data, pos := pos } = some (h, b1) →
       getEpoch h.packet_type = Epoch.initial →
       (processPacket T data c pos).2 = some pr →
       ((processPacket T data c pos).1.crypto.get Epoch.initial).send.valid = false ∧
       ((processPacket T data c pos).1.crypto.get Epoch.initial).recv.valid = false) ∧
    (noInitialKeyUpdates T → (c.is_client = true ∨ c.crypto_initialized = true) →
       initialTornDown c → initialTornDown (datagramReceived T c data)) ∧
    (∀ h b1 pr e2,
       pullQuicHeader c.host_cid.length { data := data, pos := pos } = some (h, b1) →
       getEpoch h.packet_type ≠ Epoch.initial →
       (processPacket T data c pos).2 = some pr →
       (((c.crypto.get e2).send.valid = true →
           ((processPacket T data c pos).1.crypto.get e2).send.valid = true) ∧
        ((c.crypto.get e2).recv.valid = true →
           ((processPacket T data c pos).1.crypto.get e2).recv.valid = true))) := by
  refine ⟨?_, ?_, ?_⟩
  · intro h b1 pr hH hEp h2
    rcases hB : pullBytesR h.rest_length b1 with _ | w
    · rw [processPacket_trunc_fail T data c pos h b1 hH hB] at h2
      exact absurd h2 (by simp)
    · rcases hD : decryptPacket ((serverInit c h).crypto.get (getEpoch h.packet_type)).recv
          ((data.drop pos).take (b1.pos + h.rest_length - pos)) (b1.pos - pos) with
        _ | ⟨ph, payload, pn⟩
      · rw [processPacket_decrypt_fail T data c pos h b1 w hH hB hD] at h2
        exact absurd h2 (by simp)
      · rcases hP : payloadReceived T (latchPeerCid (serverInit c h) h) payload with ⟨c3, o⟩
        rcases o with _ | iao
        · simp only [processPacket, hH, hB, hD, hP] at h2
          exact absurd h2 (by simp)
        · simp only [processPacket, hH, hB, hD, hP]
          rw [hEp, finishPacket_teardown c3 pn iao]
          exact ⟨rfl, rfl⟩
  · intro hT hcl hI
    exact receiveLoop_invalid_initial_keep T data hT (data.length + 1) c 0 false hcl hI
  · intro h b1 pr e2 hH hEp h2
    rcases hB : pullBytesR h.rest_length b1 with _ | w
    · rw [processPacket_trunc_fail T data c pos h b1 hH hB] at h2
      exact absurd h2 (by simp)
    · rcases hD : decryptPacket ((serverInit c h).crypto.get (getEpoch h.packet_type)).recv
          ((data.drop pos).take (b1.pos + h.rest_length - pos)) (b1.pos - pos) with
        _ | ⟨ph, payload, pn⟩
      · rw [processPacket_decrypt_fail T data c pos h b1 w hH hB hD] at h2
        exact absurd h2 (by simp)
      · rcases hP : payloadReceived T (latchPeerCid (serverInit c h) h) payload with ⟨c3, o⟩
        rcases o with _ | iao
        · simp only [processPacket, hH, hB, hD, hP] at h2
          exact absurd h2 (by simp)
        · simp only [processPacket, hH, hB, hD, hP]
          rw [finishPacket_keeps_crypto c3 (getEpoch h.packet_type) pn iao hEp]
          have hle1 := serverInit_cryptoLe c h
          have hle2 : cryptoLe (serverInit c h).crypto
              (latchPeerCid (serverInit c h) h).crypto := by
            rw [(latchPeerCid_fields (serverInit c h) h).2.2.2.2.2.1]
            exact cryptoLe_refl _
          have hle3 := payloadReceived_cryptoLe T (latchPeerCid (serverInit c h) h) payload
          rw [hP] at hle3
          have hle := cryptoLe_trans (cryptoLe_trans hle1 hle2) hle3
          exact hle e2

theorem C7_initial_teardown_witness :
    ((processPacket trivTls dgramInit srvConn 0).1.crypto.get Epoch.initial).send.valid
        = false ∧
    ((processPacket trivTls dgramInit srvConn 0).1.crypto.get Epoch.initial).recv.valid
        = false :=
  (C7_initial_teardown trivTls dgramInit srvConn 0).1 initHeader
    { data := dgramInit, pos := 11 } (30, true) (by decide) (by decide) (by decide)

theorem decryptPacket_invalid (ctx : CryptoContext) (packet : List Nat) (encOff : Nat)
    (hv : ctx.valid = false) : decryptPacket ctx packet encOff = none := by
  unfold decryptPacket
  rw [if_neg]
  intro hg
  rw [hv] at hg
  exact Bool.noConfusion hg.1

/-- C10: a not-yet-initialized server derives Initial keys from the
destination CID of the packet at hand whatever its packet type, latching
crypto_initialized, which never reverts to false; consequently, once the
Initial keys are torn down, a further Initial-epoch packet fails
decryption and leaves the connection state unchanged. -/
theorem C10_lazy_initial_derivation (T : TlsHandler) (data : List Nat) (c : Conn)
    (pos : Nat) :
    (∀ h b1 w, c.is_client = false → c.crypto_initialized = false →
       pullQuicHeader c.host_cid.length { data := data, pos := pos } = some (h, b1) →
       pullBytesR h.rest_length b1 = some w →
       (processPacket T data c pos).1.crypto_initialized = true) ∧
    (∀ h b1 w, c.is_client = false → c.crypto_initialized = false →
       pullQuicHeader c.host_cid.length { data := data, pos := pos } = some (h, b1) →
       pullBytesR h.rest_length b1 = some w →
       decryptPacket ((serverInit c h).crypto.get (getEpoch h.packet_type)).recv
         ((data.drop pos).take (b1.pos + h.rest_length - pos)) (b1.pos - pos) = none →
       processPacket T data c pos =
         ({ c with crypto := c.crypto.set Epoch.initial
                     (setupInitialPair h.destination_cid),
                   crypto_initialized := true }, none)) ∧
    (c.crypto_initialized = true →
       (datagramReceived T c data).crypto_initialized = true) ∧
    (∀ h b1, c.is_client = false → c.crypto_initialized = true →
       (c.crypto.get Epoch.initial).recv.valid = false →
       pullQuicHeader c.host_cid.length { data := data, pos := pos } = some (h, b1) →
       getEpoch h.packet_type = Epoch.initial →
       processPacket T data c pos = (c, none)) := by
  refine ⟨?_, ?_, ?_, ?_⟩
  · intro h b1 w hic hci hH hB
    have hf := serverInit_fires c h hic hci
    have hsi : (serverInit c h).crypto_initialized = true := by rw [hf]
    rcases hD : decryptPacket ((serverInit c h).crypto.get (getEpoch h.packet_type)).recv
        ((data.drop pos).take (b1.pos + h.rest_length - pos)) (b1.pos - pos) with
      _ | ⟨ph, payload, pn⟩
    · simp only [processPacket, hH, hB, hD]
      exact hsi
    · have hlci : (latchPeerCid (serverInit c h) h).crypto_initialized = true :=
        ((latchPeerCid_fields (serverInit c h) h).2.2.2.2.2.2.1).trans hsi
      rcases hP : payloadReceived T (latchPeerCid (serverInit c h) h) payload with ⟨c3, o⟩
      have hq := payloadReceived_quiet T (latchPeerCid (serverInit c h) h) payload
      rw [hP] at hq
      have hc3 : c3.crypto_initialized = true := (hq.2.2.2.2.2.2.2).trans hlci
      rcases o with _ | iao
      · simp only [processPacket, hH, hB, hD, hP]
        exact hc3
      · simp only [processPacket, hH, hB, hD, hP]
        exact ((finishPacket_fields c3 (getEpoch h.packet_type) pn iao).2.2.2.2.2.2.2).trans
          hc3
  · intro h b1 w hic hci hH hB hD
    simp only [processPacket, hH, hB, hD]
    rw [serverInit_fires c h hic hci]
  · intro hci
    exact receiveLoop_ci_mono T data (data.length + 1) c 0 false hci
  · intro h b1 hic hci hIv hH hEp
    have hskip := serverInit_skip c h (Or.inr hci)
    rcases hB : pullBytesR h.rest_length b1 with _ | w
    · exact processPacket_trunc_fail T data c pos h b1 hH hB
    · have hD : decryptPacket ((serverInit c h).crypto.get (getEpoch h.packet_type)).recv
          ((data.drop pos).take (b1.pos + h.rest_length - pos)) (b1.pos - pos) = none := by
        apply decryptPacket_invalid
        rw [hskip, hEp]
        exact hIv
      have := processPacket_decrypt_fail T data c pos h b1 w hH hB hD
      rw [hskip] at this
      exact this

theorem C10_lazy_initial_derivation_witness :
    processPacket trivTls dgramHS srvConn 0 =
      ({ srvConn with
           crypto := srvConn.crypto.set Epoch.initial (setupInitialPair [9]),
           crypto_initialized := true }, none) :=
  (C10_lazy_initial_derivation trivTls dgramHS srvConn 0).2.1 hsHeader
    { data := dgramHS, pos := 9 }
    ((dgramHS.drop 9).take 18, { data := dgramHS, pos := 27 })
    rfl rfl (by decide) (by decide) (by decide)
